import Mathlib

/-!
Shallow embedding of `src/audiosystem.js` (class `AudioSystem`).

The JavaScript class keeps module-level state: an audio context flag, a
master gain node (value + connected flag), a global volume scalar, a map
from sound name to a sound object (decoded buffer, `maxSources`,
`baseVolume` and a list of active instances), and a flat list of all live
sound instances.  Instances and sound objects are JS heap objects compared
by reference; here they are identified by fresh natural-number ids stored
in association tables, so that the two instance lists (per-sound and
global) hold ids and an update to an instance is visible through both, as
mutation of a shared object is in JS.  A sound-table overwrite by a later
load allocates a fresh sound object id while the old object stays in the
object table, exactly as the JS closure in `source.onended` keeps the old
object alive.

JS numbers are modelled by ℚ (volumes, times, durations) and by Int for
the `maxSources` cap.  Web-Audio node effects that the wrapper triggers are
recorded explicitly: scheduled gain automation as a list of `GainEvent`s,
`source.stop(...)` calls as a list of optional stop times, and the
`onended` callback as a counter.  `exponentialRampToValueAtTime` raises a
RangeError exactly when its target value is zero, per the Web Audio
specification; this is the only platform error the wrapper can trigger.
-/

namespace AudioSys

/-- Decoded audio buffer: an identity plus its duration in seconds
(the duration is what `play` reads for `loopEnd`). -/
structure AudioBufferModel where
  ident : Nat
  duration : ℚ
deriving DecidableEq, Repr, Inhabited

/-- Automation events scheduled on a gain node's `gain` AudioParam.
`setCurrentValueAtTime t` models `setValueAtTime(param.value, t)`, which
reads the live (render-thread) parameter value that the embedding does not
compute. -/
inductive GainEvent where
  | setValueAtTime (v : ℚ) (t : ℚ)
  | expRampToValueAtTime (v : ℚ) (t : ℚ)
  | setCurrentValueAtTime (t : ℚ)
deriving DecidableEq, Repr

/-- One sound instance: the object literal
`\x7b source, gain, tag, stopping, startTime \x7d` from `play`, together with
the state of its two audio nodes and of the `onended` closure. -/
structure SoundInst where
  /-- The sound object (JS closure variable `sound` in `play`) this
  instance belongs to, as an id into the sound-object table. -/
  soundId : Nat
  /-- The caller-supplied tag (JS `null` is `none`). -/
  tag : Option Nat
  /-- The `stopping` field, set by `stop`. -/
  stopping : Bool
  /-- The `startTime` field (`ac.currentTime` at creation). -/
  startTime : ℚ
  /-- Last value assigned directly to `gain.gain.value` (1 is the
  `createGain` default). -/
  gainValue : ℚ
  /-- Automation scheduled on `gain.gain`, in call order. -/
  gainEvents : List GainEvent
  /-- Whether the per-instance gain node is connected to the master gain
  (true from creation until the ended handler disconnects it). -/
  gainConnectedToMaster : Bool
  /-- `source.loop`. -/
  srcLoop : Bool
  /-- `source.loopStart` (0 is the node default). -/
  srcLoopStart : ℚ
  /-- `source.loopEnd` (0 is the node default). -/
  srcLoopEnd : ℚ
  /-- `source.buffer`. -/
  srcBuffer : AudioBufferModel
  /-- Arguments of every `source.stop(...)` call made on this instance:
  `none` for `stop()` (immediate), `some t` for `stop(t)`. -/
  stopCalls : List (Option ℚ)
  /-- First argument of `source.start(when, offset)`. -/
  startedAt : ℚ
  /-- Second argument of `source.start(when, offset)`. -/
  startOffset : ℚ
  /-- Whether the caller passed an `endedCallback`. -/
  hasEndedCallback : Bool
  /-- Whether the `onended` handler has run (the platform fires it at most
  once per started source). -/
  endedFired : Bool
  /-- How many times the caller's `endedCallback` has been invoked. -/
  endedCallbackCount : Nat
deriving DecidableEq, Repr, Inhabited

/-- A loaded sound object: the value stored by `asyncLoadSounds` in the
`#sounds` map. `instances` is the ordered list of active instance ids,
in creation order. -/
structure Sound where
  buffer : AudioBufferModel
  maxSources : Int
  baseVolume : ℚ
  instances : List Nat
deriving DecidableEq, Repr, Inhabited

/-- Sound definition passed to `asyncLoadSounds`. -/
structure SoundDef where
  path : String
  maxSources : Int
  baseVolume : ℚ
deriving DecidableEq, Repr

/-- The module-level state of the `AudioSystem` class. -/
structure AudioState where
  /-- Whether `createAudioContext` has run (`#ac !== null`). -/
  acCreated : Bool
  /-- `ac.currentTime`. -/
  currentTime : ℚ
  /-- `#volume`. -/
  volume : ℚ
  /-- `#gain.gain.value` (the master gain). -/
  masterGainValue : ℚ
  /-- `#gainConnected`. -/
  gainConnected : Bool
  /-- `#sounds`: name to sound-object id. -/
  soundNames : List (String × Nat)
  /-- The sound-object heap: id to sound object. -/
  soundObjs : List (Nat × Sound)
  /-- Fresh-id counter for sound objects. -/
  nextSoundId : Nat
  /-- `#soundInstances`: the flat list of live instance ids. -/
  soundInstances : List Nat
  /-- The instance heap: id to instance. -/
  instTable : List (Nat × SoundInst)
  /-- Fresh-id counter for instances. -/
  nextInstId : Nat
deriving DecidableEq, Repr

/-- The initial module state: no context, empty tables, volume 1. -/
def initState : AudioState :=
  { acCreated := false
    currentTime := 0
    volume := 1
    masterGainValue := 1
    gainConnected := false
    soundNames := []
    soundObjs := []
    nextSoundId := 0
    soundInstances := []
    instTable := []
    nextInstId := 0 }

/-- Errors the wrapper can raise: the two context errors, the sound-name
lookup error, the RangeError a zero-target exponential ramp raises, and
the TypeError that indexing an empty instance list would raise. -/
inductive AudioError where
  | noContext
  | alreadyCreated
  | unknownSound (name : String)
  | evictTargetMissing
  | rampTargetZero
deriving DecidableEq, Repr

/-- First-match association lookup (models following a map key or an
object reference). -/
def lookupA {κ α : Type} [DecidableEq κ] : List (κ × α) → κ → Option α
  | [], _ => none
  | p :: rest, k => if p.1 = k then some p.2 else lookupA rest k

/-- Replace the value at every pair with the given key (keys are unique in
all reachable states, so this is plain mutation of the shared object). -/
def updateA {κ α : Type} [DecidableEq κ] (l : List (κ × α)) (k : κ) (f : α → α) :
    List (κ × α) :=
  l.map (fun p => if p.1 = k then (p.1, f p.2) else p)

/-- JS `Map.set`: overwrite an existing key in place, else append. -/
def setA {κ α : Type} [DecidableEq κ] (l : List (κ × α)) (k : κ) (v : α) :
    List (κ × α) :=
  match lookupA l k with
  | some _ => updateA l k (fun _ => v)
  | none => l ++ [(k, v)]

/-- Look a sound up by name: `#sounds.get(soundName)`, returning the
object id together with the object. -/
def getSound (st : AudioState) (name : String) : Option (Nat × Sound) :=
  match lookupA st.soundNames name with
  | none => none
  | some sid =>
    match lookupA st.soundObjs sid with
    | none => none
    | some s => some (sid, s)

/-- The floor value used by fades (`1e-4` in the source). -/
def fadeFloor : ℚ := 1 / 10000

/-- The `#soundDirectory` module option (default value). -/
def soundDirectory : String := "./sounds"

/-- The URL `asyncLoadSounds` fetches for a definition, with the
cache-busting option (`#preventCaching`) at its default `false`, so no
query string is appended. -/
def soundUrl (info : SoundDef) : String :=
  soundDirectory ++ "/" ++ info.path

/-- `setGlobalVolume`: records the volume, then (after the context check)
sets the master gain value and keeps the connected flag consistent with
the volume's sign.  The JS function sets `#volume` before the context
check, so the pre-check state is returned with the error. -/
def setGlobalVolume (st : AudioState) (volume : ℚ) :
    AudioState × Option AudioError :=
  let st0 := { st with volume := volume }
  if st0.acCreated = false then
    (st0, some AudioError.noContext)
  else
    let st1 := { st0 with masterGainValue := volume }
    if volume ≤ 0 ∧ st1.gainConnected then
      ({ st1 with gainConnected := false }, none)
    else if volume > 0 ∧ st1.gainConnected = false then
      ({ st1 with gainConnected := true }, none)
    else
      (st1, none)

/-- `createAudioContext`: errors when already created, else allocates the
context and master gain (a fresh gain node has value 1 and is not yet
connected) and applies the stored volume via `setGlobalVolume`. -/
def createAudioContext (st : AudioState) : AudioState × Option AudioError :=
  if st.acCreated then
    (st, some AudioError.alreadyCreated)
  else
    setGlobalVolume
      { st with acCreated := true, masterGainValue := 1, gainConnected := false }
      st.volume

/-- The outcome the environment hands one sub-load of `asyncLoadSounds`:
its fetch fails (non-ok response), its decode fails, or it succeeds with
a decoded buffer. -/
inductive LoadOutcome where
  | fetchFail (statusText : String)
  | decodeFail (msg : String)
  | success (buffer : AudioBufferModel)
deriving DecidableEq, Repr

/-- A load error: the `catch` clause in `asyncLoadSounds` wraps any fetch
or decode failure in an error naming the offending URL. -/
structure LoadError where
  url : String
  cause : String
deriving DecidableEq, Repr

/-- The message string of the wrapping error thrown by `asyncLoadSounds`. -/
def LoadError.message (e : LoadError) : String :=
  "Error loading sound file \"" ++ e.url ++ "\", " ++ e.cause

/-- Completion of one sub-load of `asyncLoadSounds`: on success a fresh
sound object `\x7b buffer, maxSources, baseVolume, instances: [] \x7d` is stored
under the name (overwriting the name's prior binding; the prior object
stays in the heap for closures that captured it), on failure the state is
untouched and an error naming the URL is produced. -/
def loadOne (st : AudioState) (name : String) (info : SoundDef)
    (outcome : LoadOutcome) : AudioState × Option LoadError :=
  match outcome with
  | LoadOutcome.fetchFail statusText =>
    (st, some { url := soundUrl info, cause := statusText })
  | LoadOutcome.decodeFail msg =>
    (st, some { url := soundUrl info, cause := msg })
  | LoadOutcome.success buffer =>
    let sid := st.nextSoundId
    ({ st with
        soundObjs := st.soundObjs ++
          [(sid, { buffer := buffer, maxSources := info.maxSources,
                   baseVolume := info.baseVolume, instances := [] })]
        soundNames := setA st.soundNames name sid
        nextSoundId := sid + 1 },
     none)

/-- One completion step of the `Promise.all` in `asyncLoadSounds`: the
sub-load mutates the sound table, and the aggregate keeps the first
failure seen. -/
def loadStep (acc : AudioState × Option LoadError)
    (l : String × SoundDef × LoadOutcome) : AudioState × Option LoadError :=
  let r := loadOne acc.1 l.1 l.2.1 l.2.2
  (r.1, match acc.2 with
        | some e => some e
        | none => r.2)

/-- `asyncLoadSounds` on a set of sounds whose sub-loads complete in the
given order with the given outcomes.  Every sub-load's `.then` chain runs
to completion independently (each success is stored even after a sibling
failed), while `Promise.all` rejects with the first failure in completion
order. -/
def asyncLoadSounds (st : AudioState)
    (loads : List (String × SoundDef × LoadOutcome)) :
    Except AudioError (AudioState × Option LoadError) :=
  if st.acCreated = false then
    Except.error AudioError.noContext
  else
    Except.ok (loads.foldl loadStep (st, none))

/-- The eviction in `play`: `sound.instances[0].source.stop()` — an
unconditional immediate stop call on the oldest instance's source.  The
`stopping` flag is neither read nor written and the lists are untouched
(removal happens only when the evicted instance's `onended` fires). -/
def evictOldest (st : AudioState) (oldestId : Nat) : AudioState :=
  { st with
      instTable := updateA st.instTable oldestId
        (fun i => { i with stopCalls := i.stopCalls ++ [none] }) }

/-- The second half of `play`, after the capacity check: build the gain
and source nodes, the instance record, push it onto both lists, install
the ended handler and start the source. -/
def playFinish (st : AudioState) (sid : Nat) (sound : Sound) (loop : Bool)
    (tag : Option Nat) (offset : ℚ) (hasEndedCallback : Bool)
    (gainValue : ℚ) (gainEvents : List GainEvent) :
    AudioState × Option Nat :=
  let iid := st.nextInstId
  let inst : SoundInst :=
    { soundId := sid
      tag := tag
      stopping := false
      startTime := st.currentTime
      gainValue := gainValue
      gainEvents := gainEvents
      gainConnectedToMaster := true
      srcLoop := loop
      srcLoopStart := if loop ∧ offset > 0 then offset else 0
      srcLoopEnd := if loop ∧ offset > 0 then sound.buffer.duration else 0
      srcBuffer := sound.buffer
      stopCalls := []
      startedAt := st.currentTime
      startOffset := offset
      hasEndedCallback := hasEndedCallback
      endedFired := false
      endedCallbackCount := 0 }
  ({ st with
      soundObjs := updateA st.soundObjs sid
        (fun s => { s with instances := s.instances ++ [iid] })
      soundInstances := st.soundInstances ++ [iid]
      instTable := st.instTable ++ [(iid, inst)]
      nextInstId := iid + 1 },
   some iid)

/-- The gain-node setup in `play`: with `fadeInSeconds <= 0` the gain
value is assigned directly (any value, zero included, is accepted);
otherwise `setValueAtTime(1e-4, now)` then an exponential ramp to
`baseVolume * volume` at `now + fadeInSeconds`, which raises a RangeError
when the ramp target is zero. -/
def playGainSetup (st : AudioState) (sid : Nat) (sound : Sound)
    (volume : ℚ) (loop : Bool) (tag : Option Nat) (offset : ℚ)
    (fadeInSeconds : ℚ) (hasEndedCallback : Bool) :
    Except AudioError (AudioState × Option Nat) :=
  let target := sound.baseVolume * volume
  if fadeInSeconds ≤ 0 then
    Except.ok (playFinish st sid sound loop tag offset hasEndedCallback target [])
  else
    if target = 0 then
      Except.error AudioError.rampTargetZero
    else
      Except.ok (playFinish st sid sound loop tag offset hasEndedCallback 1
        [GainEvent.setValueAtTime fadeFloor st.currentTime,
         GainEvent.expRampToValueAtTime target (st.currentTime + fadeInSeconds)])

/-- `play`: context check, name lookup, `maxSources` gate, capacity check
with optional oldest-eviction, then node construction and bookkeeping.
A thrown JS error leaves the module state unchanged, so errors carry no
state. -/
def play (st : AudioState) (soundName : String) (volume : ℚ) (loop : Bool)
    (tag : Option Nat) (offset : ℚ) (fadeInSeconds : ℚ)
    (stopOldestIfMax : Bool) (hasEndedCallback : Bool) :
    Except AudioError (AudioState × Option Nat) :=
  if st.acCreated = false then
    Except.error AudioError.noContext
  else
    match getSound st soundName with
    | none => Except.error (AudioError.unknownSound soundName)
    | some (sid, sound) =>
      if sound.maxSources ≤ 0 then
        Except.ok (st, none)
      else
        if (sound.instances.length : Int) ≥ sound.maxSources then
          if stopOldestIfMax then
            match sound.instances.head? with
            | none => Except.error AudioError.evictTargetMissing
            | some oldestId =>
              playGainSetup (evictOldest st oldestId) sid sound volume loop
                tag offset fadeInSeconds hasEndedCallback
          else
            Except.ok (st, none)
        else
          playGainSetup st sid sound volume loop tag offset fadeInSeconds
            hasEndedCallback

/-- What `stop` does to one matched instance: mark it stopping, then
either stop the source immediately (`fadeOutSeconds <= 0`) or schedule
`setValueAtTime(gain.gain.value, now)`, an exponential ramp to the floor
value at `now + fadeOutSeconds`, and `source.stop(now + fadeOutSeconds)`. -/
def stopUpd (now : ℚ) (fadeOutSeconds : ℚ) (inst : SoundInst) : SoundInst :=
  if fadeOutSeconds ≤ 0 then
    { inst with stopping := true, stopCalls := inst.stopCalls ++ [none] }
  else
    { inst with
        stopping := true
        gainEvents := inst.gainEvents ++
          [GainEvent.setCurrentValueAtTime now,
           GainEvent.expRampToValueAtTime fadeFloor (now + fadeOutSeconds)]
        stopCalls := inst.stopCalls ++ [some (now + fadeOutSeconds)] }

/-- The body of the loop in `stop` for one instance id: skip when already
stopping or when a non-null tag filter does not match, else apply
`stopUpd` to the shared instance object. -/
def stopOne (now : ℚ) (fadeOutSeconds : ℚ) (tag : Option Nat)
    (st : AudioState) (iid : Nat) : AudioState :=
  match lookupA st.instTable iid with
  | none => st
  | some inst =>
    if inst.stopping ∨ (tag ≠ none ∧ inst.tag ≠ tag) then
      st
    else
      { st with
          instTable := updateA st.instTable iid
            (fun _ => stopUpd now fadeOutSeconds inst) }

/-- `stop`: iterate the global instance list from the last element down to
the first (the list itself is not modified by the loop), applying
`stopOne` to each id. -/
def stop (st : AudioState) (tag : Option Nat) (fadeOutSeconds : ℚ) :
    Except AudioError AudioState :=
  if st.acCreated = false then
    Except.error AudioError.noContext
  else
    Except.ok
      (st.soundInstances.reverse.foldl (stopOne st.currentTime fadeOutSeconds tag) st)

/-- The `source.onended` handler installed by `play`: invoke the caller's
callback when one was given, disconnect the per-instance gain, and splice
the instance out of the captured sound object's list and out of the
global list (`indexOf` + `splice` removes the first occurrence and is a
no-op at `-1`). -/
def fireEnded (st : AudioState) (iid : Nat) : AudioState :=
  match lookupA st.instTable iid with
  | none => st
  | some inst =>
    { st with
        instTable := updateA st.instTable iid
          (fun i =>
            { i with
                endedFired := true
                endedCallbackCount :=
                  i.endedCallbackCount + (if i.hasEndedCallback then 1 else 0)
                gainConnectedToMaster := false })
        soundObjs := updateA st.soundObjs inst.soundId
          (fun s => { s with instances := s.instances.erase iid })
        soundInstances := st.soundInstances.erase iid }

/-- `isTagPlaying`: some live instance is not stopping and carries the
given tag. -/
def isTagPlaying (st : AudioState) (tag : Option Nat) : Bool :=
  st.soundInstances.any (fun iid =>
    match lookupA st.instTable iid with
    | none => false
    | some inst => !inst.stopping && inst.tag == tag)

/-- One step of the system: the clock advancing, a public method call that
does not throw away state, a sub-load completing, or the platform firing
an `onended` event for a started, not yet ended instance (the platform
fires it at most once per source). -/
inductive Step : AudioState → AudioState → Prop where
  | tick (st : AudioState) (dt : ℚ) (h : 0 ≤ dt) :
      Step st { st with currentTime := st.currentTime + dt }
  | createCtx (st st' : AudioState) (e : Option AudioError)
      (h : createAudioContext st = (st', e)) : Step st st'
  | setVol (st st' : AudioState) (v : ℚ) (e : Option AudioError)
      (h : setGlobalVolume st v = (st', e)) : Step st st'
  | load (st st' : AudioState) (name : String) (info : SoundDef)
      (outcome : LoadOutcome) (e : Option LoadError)
      (hac : st.acCreated = true)
      (h : loadOne st name info outcome = (st', e)) : Step st st'
  | playStep (st st' : AudioState) (soundName : String) (volume : ℚ)
      (loop : Bool) (tag : Option Nat) (offset fadeInSeconds : ℚ)
      (stopOldestIfMax hasEndedCallback : Bool) (r : Option Nat)
      (h : play st soundName volume loop tag offset fadeInSeconds
        stopOldestIfMax hasEndedCallback = Except.ok (st', r)) : Step st st'
  | stopStep (st st' : AudioState) (tag : Option Nat) (fadeOutSeconds : ℚ)
      (h : stop st tag fadeOutSeconds = Except.ok st') : Step st st'
  | endedStep (st : AudioState) (iid : Nat) (inst : SoundInst)
      (h : lookupA st.instTable iid = some inst)
      (honce : inst.endedFired = false) : Step st (fireEnded st iid)

/-- States reachable from the initial module state. -/
inductive Reachable : AudioState → Prop where
  | init : Reachable initState
  | step {st st' : AudioState} : Reachable st → Step st st' → Reachable st'

/-- An instance id counts as a concurrently active instance when it is in
the instance heap, its source has never had `stop` called on it, and its
ended handler has not fired. -/
def isActiveIn (st : AudioState) (iid : Nat) : Bool :=
  match lookupA st.instTable iid with
  | none => false
  | some inst => inst.stopCalls.isEmpty && !inst.endedFired

/-- Number of concurrently active instances in a sound object's list. -/
def soundActiveCount (st : AudioState) (sid : Nat) : Nat :=
  match lookupA st.soundObjs sid with
  | none => 0
  | some s => s.instances.countP (fun iid => isActiveIn st iid)

/-- The failure carried by a load outcome, when any. -/
def outcomeCause : LoadOutcome → Option String
  | LoadOutcome.fetchFail statusText => some statusText
  | LoadOutcome.decodeFail msg => some msg
  | LoadOutcome.success _ => none

/-- The first failing sub-load in completion order, with its definition
and cause. -/
def firstFailure : List (String × SoundDef × LoadOutcome) → Option (SoundDef × String)
  | [] => none
  | (_, info, o) :: rest =>
    match outcomeCause o with
    | some c => some (info, c)
    | none => firstFailure rest

/-- The last successful sub-load of a given name in completion order. -/
def lastSuccess (name : String) :
    List (String × SoundDef × LoadOutcome) → Option (SoundDef × AudioBufferModel)
  | [] => none
  | (n, info, o) :: rest =>
    match lastSuccess name rest with
    | some r => some r
    | none =>
      if n = name then
        match o with
        | LoadOutcome.success b => some (info, b)
        | _ => none
      else none

/-- Structural invariant tying the instance heap, the sound-object heap
and the three kinds of instance lists together.  Contains the claimed
two-collection membership property plus the bookkeeping (fresh ids,
unique keys) that makes it inductive. -/
structure Inv (st : AudioState) : Prop where
  instKeysNodup : (st.instTable.map Prod.fst).Nodup
  instKeysLt : ∀ p ∈ st.instTable, p.1 < st.nextInstId
  soundKeysNodup : (st.soundObjs.map Prod.fst).Nodup
  soundKeysLt : ∀ p ∈ st.soundObjs, p.1 < st.nextSoundId
  instSoundIdLt : ∀ p ∈ st.instTable, p.2.soundId < st.nextSoundId
  globalSub : ∀ iid ∈ st.soundInstances, ∃ i, lookupA st.instTable iid = some i
  soundListSub : ∀ q ∈ st.soundObjs, ∀ iid ∈ q.2.instances,
    ∃ i, lookupA st.instTable iid = some i ∧ i.soundId = q.1
  mainGlobal : ∀ p ∈ st.instTable,
    st.soundInstances.count p.1 = if p.2.endedFired then 0 else 1
  mainSound : ∀ p ∈ st.instTable, ∀ q ∈ st.soundObjs,
    q.2.instances.count p.1 =
      if p.2.endedFired = false ∧ q.1 = p.2.soundId then 1 else 0
  cbOnce : ∀ p ∈ st.instTable,
    p.2.endedCallbackCount =
      if p.2.endedFired ∧ p.2.hasEndedCallback then 1 else 0

/-! Concrete states used to exercise the definitions. -/

/-- A decoded two-second buffer. -/
def demoBuffer : AudioBufferModel := { ident := 0, duration := 2 }

/-- A second decoded buffer. -/
def demoBuffer2 : AudioBufferModel := { ident := 1, duration := 3 }

/-- A sound definition with a single-instance cap. -/
def demoDef : SoundDef := { path := "click.wav", maxSources := 1, baseVolume := 1 }

/-- A sound definition for load-failure runs. -/
def demoDef2 : SoundDef := { path := "music.mp3", maxSources := 2, baseVolume := 1/2 }

/-- State after `createAudioContext()`. -/
def demoS1 : AudioState := (createAudioContext initState).1

/-- State after loading the `click` sound. -/
def demoS2 : AudioState :=
  (loadOne demoS1 "click" demoDef (LoadOutcome.success demoBuffer)).1

/-- State after `play('click')`. -/
def demoS3 : AudioState :=
  match play demoS2 "click" 1 false none 0 0 true false with
  | Except.ok (s, _) => s
  | Except.error _ => initState

/-- State after a second `play('click', ..., tag)`: the first instance is
evicted. -/
def demoS4 : AudioState :=
  match play demoS3 "click" 1 false (some 7) 0 0 true false with
  | Except.ok (s, _) => s
  | Except.error _ => initState

/-- The first created instance, as it sits in `demoS3`. -/
def demoInst0 : SoundInst := (lookupA demoS3.instTable 0).getD default

/-- The second created instance, as it sits in `demoS4`. -/
def demoInst1 : SoundInst := (lookupA demoS4.instTable 1).getD default

/-- A load batch whose second fetch fails. -/
def demoLoads : List (String × SoundDef × LoadOutcome) :=
  [("click", demoDef, LoadOutcome.success demoBuffer),
   ("music", demoDef2, LoadOutcome.fetchFail "Not Found"),
   ("click", demoDef2, LoadOutcome.success demoBuffer2)]

/-- The first instance as it sits in `demoS4`: evicted (one stop call) but
not `stopping`. -/
def demoInst0v4 : SoundInst := (lookupA demoS4.instTable 0).getD default

/-- The `click` sound object as stored after loading. -/
def demoClickSound : Sound := (lookupA demoS2.soundObjs 0).getD default

/-- The `click` sound object once the first instance is playing. -/
def demoClickSound3 : Sound := (lookupA demoS3.soundObjs 0).getD default

/-- State after `stop(tag, 2.0)` on `demoS4` with the second instance's
tag. -/
def demoS5 : AudioState :=
  match stop demoS4 (some 7) 2 with
  | Except.ok s => s
  | Except.error _ => initState

/-- Result of running the demo load batch. -/
def demoLoadResult : AudioState × Option LoadError :=
  match asyncLoadSounds demoS1 demoLoads with
  | Except.ok r => r
  | Except.error _ => (initState, none)

/-! Association-list lemmas. -/

@[simp]
theorem lookupA_nil {κ α : Type} [DecidableEq κ] (k : κ) :
    lookupA ([] : List (κ × α)) k = none := rfl

@[simp]
theorem lookupA_cons {κ α : Type} [DecidableEq κ]
    (p : κ × α) (rest : List (κ × α)) (k : κ) :
    lookupA (p :: rest) k = if p.1 = k then some p.2 else lookupA rest k := rfl

@[simp]
theorem updateA_nil {κ α : Type} [DecidableEq κ] (k : κ) (f : α → α) :
    updateA ([] : List (κ × α)) k f = [] := rfl

@[simp]
theorem updateA_cons {κ α : Type} [DecidableEq κ]
    (p : κ × α) (rest : List (κ × α)) (k : κ) (f : α → α) :
    updateA (p :: rest) k f =
      (if p.1 = k then (p.1, f p.2) else p) :: updateA rest k f := rfl

theorem lookupA_updateA_self {κ α : Type} [DecidableEq κ]
    (l : List (κ × α)) (k : κ) (f : α → α) :
    lookupA (updateA l k f) k = (lookupA l k).map f := by
  induction l with
  | nil => rfl
  | cons p rest ih =>
    by_cases h : p.1 = k
    · simp [h]
    · simp [h, ih]

theorem lookupA_updateA_ne {κ α : Type} [DecidableEq κ]
    (l : List (κ × α)) (k k' : κ) (f : α → α) (h : k' ≠ k) :
    lookupA (updateA l k f) k' = lookupA l k' := by
  induction l with
  | nil => rfl
  | cons p rest ih =>
    by_cases hp : p.1 = k
    · simp [hp, Ne.symm h, ih]
    · by_cases hp' : p.1 = k'
      · simp [hp, hp', h]
      · simp [hp, hp', ih]

theorem keys_updateA {κ α : Type} [DecidableEq κ]
    (l : List (κ × α)) (k : κ) (f : α → α) :
    (updateA l k f).map Prod.fst = l.map Prod.fst := by
  induction l with
  | nil => rfl
  | cons p rest ih =>
    by_cases h : p.1 = k
    · simp [h, ih]
    · simp [h, ih]

theorem mem_updateA {κ α : Type} [DecidableEq κ]
    {l : List (κ × α)} {k : κ} {f : α → α} {p' : κ × α}
    (h : p' ∈ updateA l k f) :
    ∃ p ∈ l, p'.1 = p.1 ∧
      ((p.1 ≠ k ∧ p' = p) ∨ (p.1 = k ∧ p'.2 = f p.2)) := by
  unfold updateA at h
  obtain ⟨p, hp, hval⟩ := List.mem_map.mp h
  by_cases hk : p.1 = k
  · rw [if_pos hk] at hval
    exact ⟨p, hp, by rw [← hval], Or.inr ⟨hk, by rw [← hval]⟩⟩
  · rw [if_neg hk] at hval
    exact ⟨p, hp, by rw [← hval], Or.inl ⟨hk, hval.symm⟩⟩

theorem lookupA_append_left {κ α : Type} [DecidableEq κ]
    {l₁ : List (κ × α)} (l₂ : List (κ × α)) {k : κ} {v : α}
    (h : lookupA l₁ k = some v) :
    lookupA (l₁ ++ l₂) k = some v := by
  induction l₁ with
  | nil => simp at h
  | cons p rest ih =>
    by_cases hp : p.1 = k
    · simp [hp] at h ⊢
      exact h
    · simp [hp] at h ⊢
      exact ih h

theorem lookupA_append_right {κ α : Type} [DecidableEq κ]
    {l₁ : List (κ × α)} (l₂ : List (κ × α)) {k : κ}
    (h : lookupA l₁ k = none) :
    lookupA (l₁ ++ l₂) k = lookupA l₂ k := by
  induction l₁ with
  | nil => rfl
  | cons p rest ih =>
    by_cases hp : p.1 = k
    · simp [hp] at h
    · simp [hp] at h ⊢
      exact ih h

theorem lookupA_eq_some_mem {κ α : Type} [DecidableEq κ]
    {l : List (κ × α)} {k : κ} {v : α} (h : lookupA l k = some v) :
    (k, v) ∈ l := by
  induction l with
  | nil => simp at h
  | cons p rest ih =>
    by_cases hp : p.1 = k
    · rw [lookupA_cons, if_pos hp] at h
      injection h with h2
      exact List.mem_cons.mpr (Or.inl (Prod.ext_iff.mpr ⟨hp.symm, h2.symm⟩))
    · rw [lookupA_cons, if_neg hp] at h
      exact List.mem_cons_of_mem _ (ih h)

theorem lookupA_isSome_of_mem {κ α : Type} [DecidableEq κ]
    {l : List (κ × α)} {p : κ × α} (h : p ∈ l) :
    ∃ v, lookupA l p.1 = some v := by
  induction l with
  | nil => simp at h
  | cons q rest ih =>
    by_cases hq : q.1 = p.1
    · exact ⟨q.2, by simp [hq]⟩
    · rcases List.mem_cons.mp h with hpq | hp
      · exact absurd (congrArg Prod.fst hpq.symm) hq
      · obtain ⟨v, hv⟩ := ih hp
        exact ⟨v, by simp [hq, hv]⟩

theorem lookupA_of_mem_nodup {κ α : Type} [DecidableEq κ]
    {l : List (κ × α)} (hnd : (l.map Prod.fst).Nodup)
    {p : κ × α} (h : p ∈ l) :
    lookupA l p.1 = some p.2 := by
  induction l with
  | nil => simp at h
  | cons q rest ih =>
    rw [List.map_cons, List.nodup_cons] at hnd
    rcases List.mem_cons.mp h with hpq | hp
    · subst hpq
      simp
    · have hq : q.1 ≠ p.1 := by
        intro he
        exact hnd.1 (he ▸ List.mem_map_of_mem Prod.fst hp)
      simp only [lookupA_cons, if_neg hq]
      exact ih hnd.2 hp

theorem lookupA_eq_none_of_not_mem {κ α : Type} [DecidableEq κ]
    {l : List (κ × α)} {k : κ} (h : k ∉ l.map Prod.fst) :
    lookupA l k = none := by
  induction l with
  | nil => rfl
  | cons p rest ih =>
    simp only [List.map_cons, List.mem_cons] at h
    push_neg at h
    simp only [lookupA_cons, if_neg (Ne.symm h.1)]
    exact ih h.2

theorem setA_of_none {κ α : Type} [DecidableEq κ]
    {l : List (κ × α)} {k : κ} (v : α) (h : lookupA l k = none) :
    setA l k v = l ++ [(k, v)] := by
  unfold setA
  rw [h]

theorem setA_of_some {κ α : Type} [DecidableEq κ]
    {l : List (κ × α)} {k : κ} (v : α) {w : α} (h : lookupA l k = some w) :
    setA l k v = updateA l k (fun _ => v) := by
  unfold setA
  rw [h]

theorem lookupA_setA_self {κ α : Type} [DecidableEq κ]
    (l : List (κ × α)) (k : κ) (v : α) :
    lookupA (setA l k v) k = some v := by
  cases hl : lookupA l k with
  | none =>
    rw [setA_of_none v hl, lookupA_append_right _ hl]
    simp
  | some w =>
    rw [setA_of_some v hl, lookupA_updateA_self, hl]
    rfl

theorem lookupA_setA_ne {κ α : Type} [DecidableEq κ]
    (l : List (κ × α)) (k k' : κ) (v : α) (h : k' ≠ k) :
    lookupA (setA l k v) k' = lookupA l k' := by
  cases hl : lookupA l k with
  | none =>
    rw [setA_of_none v hl]
    cases hl' : lookupA l k' with
    | none =>
      rw [lookupA_append_right _ hl']
      simp [Ne.symm h]
    | some w => exact lookupA_append_left _ hl'
  | some w =>
    rw [setA_of_some v hl]
    exact lookupA_updateA_ne _ _ _ _ h

theorem mem_setA {κ α : Type} [DecidableEq κ]
    {l : List (κ × α)} {k : κ} {v : α} {p' : κ × α}
    (h : p' ∈ setA l k v) :
    p' ∈ l ∨ p' = (k, v) := by
  cases hl : lookupA l k with
  | none =>
    rw [setA_of_none v hl] at h
    rcases List.mem_append.mp h with hm | hm
    · exact Or.inl hm
    · simp at hm
      exact Or.inr hm
  | some w =>
    rw [setA_of_some v hl] at h
    obtain ⟨p, hp, hkey, hval⟩ := mem_updateA h
    rcases hval with ⟨_, he⟩ | ⟨hke, he⟩
    · exact Or.inl (he ▸ hp)
    · exact Or.inr (Prod.ext_iff.mpr ⟨hkey.trans hke, he⟩)

/-! Counting helpers. -/

theorem count_single_eq (a b : Nat) : [a].count b = if b = a then 1 else 0 := by
  by_cases h : b = a <;> simp [h]

/-! Invariant preservation. -/

theorem inv_of_fields {st st' : AudioState} (hInv : Inv st)
    (h1 : st'.instTable = st.instTable) (h2 : st'.soundObjs = st.soundObjs)
    (h3 : st'.soundInstances = st.soundInstances)
    (h4 : st'.nextInstId = st.nextInstId) (h5 : st'.nextSoundId = st.nextSoundId) :
    Inv st' := by
  refine ⟨?_, ?_, ?_, ?_, ?_, ?_, ?_, ?_, ?_, ?_⟩
  · rw [h1]; exact hInv.instKeysNodup
  · rw [h1, h4]; exact hInv.instKeysLt
  · rw [h2]; exact hInv.soundKeysNodup
  · rw [h2, h5]; exact hInv.soundKeysLt
  · rw [h1, h5]; exact hInv.instSoundIdLt
  · rw [h3, h1]; exact hInv.globalSub
  · rw [h2, h1]; exact hInv.soundListSub
  · rw [h1, h3]; exact hInv.mainGlobal
  · rw [h1, h2]; exact hInv.mainSound
  · rw [h1]; exact hInv.cbOnce

theorem inv_tick (st : AudioState) (dt : ℚ) (hInv : Inv st) :
    Inv { st with currentTime := st.currentTime + dt } :=
  inv_of_fields hInv rfl rfl rfl rfl rfl

theorem inv_setGlobalVolume (st : AudioState) (v : ℚ) (hInv : Inv st) :
    Inv (setGlobalVolume st v).1 := by
  unfold setGlobalVolume
  dsimp only
  split_ifs <;> exact inv_of_fields hInv rfl rfl rfl rfl rfl

theorem inv_createAudioContext (st : AudioState) (hInv : Inv st) :
    Inv (createAudioContext st).1 := by
  unfold createAudioContext
  split_ifs
  · exact hInv
  · exact inv_setGlobalVolume _ _ (inv_of_fields hInv rfl rfl rfl rfl rfl)

theorem inv_loadOne (st : AudioState) (name : String) (info : SoundDef)
    (outcome : LoadOutcome) (hInv : Inv st) :
    Inv (loadOne st name info outcome).1 := by
  cases outcome with
  | fetchFail s => exact hInv
  | decodeFail s => exact hInv
  | success buffer =>
    refine ⟨?_, ?_, ?_, ?_, ?_, ?_, ?_, ?_, ?_, ?_⟩
    · exact hInv.instKeysNodup
    · exact hInv.instKeysLt
    · show ((st.soundObjs ++ [(st.nextSoundId, _)]).map Prod.fst).Nodup
      rw [List.map_append]
      refine List.Nodup.append hInv.soundKeysNodup (List.nodup_singleton _) ?_
      intro a ha ha'
      simp at ha'
      obtain ⟨p, hp, hfst⟩ := List.mem_map.mp ha
      have := hInv.soundKeysLt p hp
      rw [hfst, ha'] at this
      exact lt_irrefl _ this
    · intro p hp
      rcases List.mem_append.mp hp with hm | hm
      · exact Nat.lt_succ_of_lt (hInv.soundKeysLt p hm)
      · simp at hm
        subst hm
        exact Nat.lt_succ_self _
    · intro p hp
      exact Nat.lt_succ_of_lt (hInv.instSoundIdLt p hp)
    · exact hInv.globalSub
    · intro q hq iid hiid
      rcases List.mem_append.mp hq with hm | hm
      · exact hInv.soundListSub q hm iid hiid
      · simp at hm
        subst hm
        simp at hiid
    · exact hInv.mainGlobal
    · intro p hp q hq
      rcases List.mem_append.mp hq with hm | hm
      · exact hInv.mainSound p hp q hm
      · simp at hm
        subst hm
        have hlt := hInv.instSoundIdLt p hp
        have hne : ¬ st.nextSoundId = p.2.soundId :=
          fun he => lt_irrefl _ (he ▸ hlt)
        simp [hne]
    · exact hInv.cbOnce

theorem inv_updateA_instTable (st : AudioState) (k : Nat)
    (f : SoundInst → SoundInst) (hInv : Inv st)
    (hf : ∀ x, lookupA st.instTable k = some x →
      (f x).soundId = x.soundId ∧ (f x).endedFired = x.endedFired ∧
      (f x).endedCallbackCount = x.endedCallbackCount ∧
      (f x).hasEndedCallback = x.hasEndedCallback) :
    Inv { st with instTable := updateA st.instTable k f } := by
  have hlookup : ∀ q ∈ st.instTable, q.1 = k → lookupA st.instTable k = some q.2 := by
    intro q hq hk
    have := lookupA_of_mem_nodup hInv.instKeysNodup hq
    rw [hk] at this
    exact this
  refine ⟨?_, ?_, ?_, ?_, ?_, ?_, ?_, ?_, ?_, ?_⟩
  · show ((updateA st.instTable k f).map Prod.fst).Nodup
    rw [keys_updateA]
    exact hInv.instKeysNodup
  · intro p hp
    obtain ⟨q, hq, hkey, _⟩ := mem_updateA hp
    rw [hkey]
    exact hInv.instKeysLt q hq
  · exact hInv.soundKeysNodup
  · exact hInv.soundKeysLt
  · intro p hp
    obtain ⟨q, hq, hkey, hval⟩ := mem_updateA hp
    rcases hval with ⟨_, hpq⟩ | ⟨hk, he⟩
    · rw [hpq]
      exact hInv.instSoundIdLt q hq
    · rw [he, (hf q.2 (hlookup q hq hk)).1]
      exact hInv.instSoundIdLt q hq
  · intro iid hiid
    obtain ⟨i, hi⟩ := hInv.globalSub iid hiid
    by_cases hik : iid = k
    · subst hik
      exact ⟨f i, by rw [lookupA_updateA_self, hi]; rfl⟩
    · exact ⟨i, by rw [lookupA_updateA_ne _ _ _ _ hik]; exact hi⟩
  · intro q hq iid hiid
    obtain ⟨i, hi, hsid⟩ := hInv.soundListSub q hq iid hiid
    by_cases hik : iid = k
    · subst hik
      refine ⟨f i, by rw [lookupA_updateA_self, hi]; rfl, ?_⟩
      rw [(hf i hi).1]
      exact hsid
    · exact ⟨i, by rw [lookupA_updateA_ne _ _ _ _ hik]; exact hi, hsid⟩
  · intro p hp
    obtain ⟨q, hq, hkey, hval⟩ := mem_updateA hp
    rcases hval with ⟨_, hpq⟩ | ⟨hk, he⟩
    · rw [hpq]
      exact hInv.mainGlobal q hq
    · rw [hkey, he, (hf q.2 (hlookup q hq hk)).2.1]
      exact hInv.mainGlobal q hq
  · intro p hp q hq
    obtain ⟨r, hr, hkey, hval⟩ := mem_updateA hp
    rcases hval with ⟨_, hpq⟩ | ⟨hk, he⟩
    · rw [hpq]
      exact hInv.mainSound r hr q hq
    · rw [hkey, he, (hf r.2 (hlookup r hr hk)).1, (hf r.2 (hlookup r hr hk)).2.1]
      exact hInv.mainSound r hr q hq
  · intro p hp
    obtain ⟨q, hq, _, hval⟩ := mem_updateA hp
    rcases hval with ⟨_, hpq⟩ | ⟨hk, he⟩
    · rw [hpq]
      exact hInv.cbOnce q hq
    · have h4 := hf q.2 (hlookup q hq hk)
      rw [he, h4.2.1, h4.2.2.1, h4.2.2.2]
      exact hInv.cbOnce q hq

theorem inv_playFinish (st : AudioState) (sid : Nat) (sound s₀ : Sound)
    (loop : Bool) (tag : Option Nat) (offset : ℚ) (hasCb : Bool)
    (gv : ℚ) (evs : List GainEvent) (hInv : Inv st)
    (hsid : lookupA st.soundObjs sid = some s₀) :
    Inv (playFinish st sid sound loop tag offset hasCb gv evs).1 := by
  have hfreshKey : st.nextInstId ∉ st.instTable.map Prod.fst := by
    intro hmem
    obtain ⟨p, hp, hfst⟩ := List.mem_map.mp hmem
    exact lt_irrefl _ (hfst ▸ hInv.instKeysLt p hp)
  have hlook_none : lookupA st.instTable st.nextInstId = none :=
    lookupA_eq_none_of_not_mem hfreshKey
  have hfreshG : st.nextInstId ∉ st.soundInstances := by
    intro hmem
    obtain ⟨i, hi⟩ := hInv.globalSub _ hmem
    rw [hlook_none] at hi
    exact Option.noConfusion hi
  have hfreshS : ∀ q ∈ st.soundObjs, st.nextInstId ∉ q.2.instances := by
    intro q hq hmem
    obtain ⟨i, hi, _⟩ := hInv.soundListSub q hq _ hmem
    rw [hlook_none] at hi
    exact Option.noConfusion hi
  have hsidlt : sid < st.nextSoundId :=
    hInv.soundKeysLt _ (lookupA_eq_some_mem hsid)
  unfold playFinish
  dsimp only
  refine ⟨?_, ?_, ?_, ?_, ?_, ?_, ?_, ?_, ?_, ?_⟩
  all_goals dsimp only
  · rw [List.map_append]
    refine List.Nodup.append hInv.instKeysNodup (List.nodup_singleton _) ?_
    intro a ha ha'
    simp at ha'
    exact hfreshKey (ha' ▸ ha)
  · intro p hp
    rcases List.mem_append.mp hp with hm | hm
    · exact Nat.lt_succ_of_lt (hInv.instKeysLt p hm)
    · simp at hm
      subst hm
      exact Nat.lt_succ_self _
  · rw [keys_updateA]
    exact hInv.soundKeysNodup
  · intro p hp
    obtain ⟨q, hq, hkey, _⟩ := mem_updateA hp
    rw [hkey]
    exact hInv.soundKeysLt q hq
  · intro p hp
    rcases List.mem_append.mp hp with hm | hm
    · exact hInv.instSoundIdLt p hm
    · simp at hm
      subst hm
      exact hsidlt
  · intro iid' hiid
    rcases List.mem_append.mp hiid with hm | hm
    · obtain ⟨i, hi⟩ := hInv.globalSub iid' hm
      exact ⟨i, lookupA_append_left _ hi⟩
    · simp at hm
      subst hm
      rw [lookupA_append_right _ hlook_none]
      simp
  · intro q' hq' iid' hiid'
    obtain ⟨q, hq, hkey, hval⟩ := mem_updateA hq'
    rcases hval with ⟨_, hpq⟩ | ⟨hk, he⟩
    · rw [hpq] at hiid' ⊢
      obtain ⟨i, hi, hsd⟩ := hInv.soundListSub q hq iid' hiid'
      exact ⟨i, lookupA_append_left _ hi, hsd⟩
    · rw [he] at hiid'
      rcases List.mem_append.mp hiid' with hm | hm
      · obtain ⟨i, hi, hsd⟩ := hInv.soundListSub q hq iid' hm
        refine ⟨i, lookupA_append_left _ hi, ?_⟩
        rw [hkey, hsd]
      · simp at hm
        subst hm
        rw [lookupA_append_right _ hlook_none]
        have hl : ∀ i : SoundInst,
            lookupA [(st.nextInstId, i)] st.nextInstId = some i := by
          intro i
          simp
        refine ⟨_, hl _, ?_⟩
        rw [hkey, hk]
  · intro p hp
    rcases List.mem_append.mp hp with hm | hm
    · rw [List.count_append, count_single_eq]
      have hne : ¬ p.1 = st.nextInstId :=
        fun he => lt_irrefl _ (he ▸ hInv.instKeysLt p hm)
      rw [if_neg hne, Nat.add_zero]
      exact hInv.mainGlobal p hm
    · simp at hm
      subst hm
      rw [List.count_append, count_single_eq,
        List.count_eq_zero_of_not_mem hfreshG]
      simp
  · intro p hp q' hq'
    obtain ⟨q, hq, hkey, hval⟩ := mem_updateA hq'
    rcases List.mem_append.mp hp with hm | hm
    · rcases hval with ⟨_, hpq⟩ | ⟨hk, he⟩
      · rw [hpq]
        exact hInv.mainSound p hm q hq
      · rw [he]
        have hne : ¬ p.1 = st.nextInstId :=
          fun hx => lt_irrefl _ (hx ▸ hInv.instKeysLt p hm)
        simp only [List.count_append, count_single_eq]
        rw [if_neg hne, Nat.add_zero, hkey]
        exact hInv.mainSound p hm q hq
    · simp at hm
      subst hm
      rcases hval with ⟨hne, hpq⟩ | ⟨hk, he⟩
      · rw [hpq]
        rw [List.count_eq_zero_of_not_mem (hfreshS q hq)]
        simp [hne]
      · rw [he]
        simp only [List.count_append, count_single_eq]
        rw [List.count_eq_zero_of_not_mem (hfreshS q hq)]
        simp [hkey, hk]
  · intro p hp
    rcases List.mem_append.mp hp with hm | hm
    · exact hInv.cbOnce p hm
    · simp at hm
      subst hm
      simp

theorem inv_cast {st st' : AudioState} (h : st = st') (hInv : Inv st) :
    Inv st' := h ▸ hInv

theorem getSound_lookup {st : AudioState} {name : String} {sid : Nat}
    {sound : Sound} (h : getSound st name = some (sid, sound)) :
    lookupA st.soundNames name = some sid ∧
    lookupA st.soundObjs sid = some sound := by
  unfold getSound at h
  cases hn : lookupA st.soundNames name with
  | none =>
    simp only [hn] at h
    exact absurd h (by simp)
  | some sid' =>
    simp only [hn] at h
    cases ho : lookupA st.soundObjs sid' with
    | none =>
      simp only [ho] at h
      exact absurd h (by simp)
    | some s =>
      simp only [ho, Option.some.injEq, Prod.mk.injEq] at h
      obtain ⟨h1, h2⟩ := h
      subst h1
      subst h2
      exact ⟨rfl, ho⟩

theorem inv_playGainSetup (st st' : AudioState) (sid : Nat) (sound s₀ : Sound)
    (volume : ℚ) (loop : Bool) (tag : Option Nat) (offset fadeInSeconds : ℚ)
    (hasCb : Bool) (r : Option Nat) (hInv : Inv st)
    (hsid : lookupA st.soundObjs sid = some s₀)
    (h : playGainSetup st sid sound volume loop tag offset fadeInSeconds hasCb
      = Except.ok (st', r)) : Inv st' := by
  unfold playGainSetup at h
  by_cases hf : fadeInSeconds ≤ 0
  · rw [if_pos hf] at h
    injection h with h2
    exact inv_cast (congrArg Prod.fst h2)
      (inv_playFinish st sid sound s₀ loop tag offset hasCb _ _ hInv hsid)
  · rw [if_neg hf] at h
    by_cases ht : sound.baseVolume * volume = 0
    · rw [if_pos ht] at h
      exact absurd h (by simp)
    · rw [if_neg ht] at h
      injection h with h2
      exact inv_cast (congrArg Prod.fst h2)
        (inv_playFinish st sid sound s₀ loop tag offset hasCb _ _ hInv hsid)

theorem inv_evictOldest (st : AudioState) (oldestId : Nat) (hInv : Inv st) :
    Inv (evictOldest st oldestId) :=
  inv_updateA_instTable st oldestId _ hInv (fun _ _ => ⟨rfl, rfl, rfl, rfl⟩)

theorem inv_play (st st' : AudioState) (soundName : String) (volume : ℚ)
    (loop : Bool) (tag : Option Nat) (offset fadeInSeconds : ℚ)
    (stopOldestIfMax hasCb : Bool) (r : Option Nat) (hInv : Inv st)
    (h : play st soundName volume loop tag offset fadeInSeconds stopOldestIfMax
      hasCb = Except.ok (st', r)) : Inv st' := by
  unfold play at h
  by_cases hac : st.acCreated = false
  · rw [if_pos hac] at h
    exact absurd h (by simp)
  · rw [if_neg hac] at h
    cases hgs : getSound st soundName with
    | none =>
      rw [hgs] at h
      simp at h
    | some p =>
      obtain ⟨sid, sound⟩ := p
      simp only [hgs] at h
      have hsid := (getSound_lookup hgs).2
      by_cases hms : sound.maxSources ≤ 0
      · rw [if_pos hms] at h
        injection h with h2
        exact inv_cast (congrArg Prod.fst h2) hInv
      · rw [if_neg hms] at h
        by_cases hcap : (sound.instances.length : Int) ≥ sound.maxSources
        · rw [if_pos hcap] at h
          by_cases hso : stopOldestIfMax = true
          · rw [if_pos hso] at h
            cases hhd : sound.instances.head? with
            | none =>
              rw [hhd] at h
              simp at h
            | some oldestId =>
              rw [hhd] at h
              exact inv_playGainSetup _ _ _ _ sound _ _ _ _ _ _ _
                (inv_evictOldest st oldestId hInv) hsid h
          · rw [if_neg hso] at h
            injection h with h2
            exact inv_cast (congrArg Prod.fst h2) hInv
        · rw [if_neg hcap] at h
          exact inv_playGainSetup _ _ _ _ sound _ _ _ _ _ _ _ hInv hsid h

/-! Characterization of `stop`. -/

theorem stopUpd_stopping (now fade : ℚ) (inst : SoundInst) :
    (stopUpd now fade inst).stopping = true := by
  unfold stopUpd
  split_ifs <;> rfl

theorem stopUpd_fields (now fade : ℚ) (inst : SoundInst) :
    (stopUpd now fade inst).soundId = inst.soundId ∧
    (stopUpd now fade inst).tag = inst.tag ∧
    (stopUpd now fade inst).startTime = inst.startTime ∧
    (stopUpd now fade inst).gainValue = inst.gainValue ∧
    (stopUpd now fade inst).gainConnectedToMaster = inst.gainConnectedToMaster ∧
    (stopUpd now fade inst).srcLoop = inst.srcLoop ∧
    (stopUpd now fade inst).srcLoopStart = inst.srcLoopStart ∧
    (stopUpd now fade inst).srcLoopEnd = inst.srcLoopEnd ∧
    (stopUpd now fade inst).srcBuffer = inst.srcBuffer ∧
    (stopUpd now fade inst).startedAt = inst.startedAt ∧
    (stopUpd now fade inst).startOffset = inst.startOffset ∧
    (stopUpd now fade inst).hasEndedCallback = inst.hasEndedCallback ∧
    (stopUpd now fade inst).endedFired = inst.endedFired ∧
    (stopUpd now fade inst).endedCallbackCount = inst.endedCallbackCount := by
  unfold stopUpd
  split_ifs <;>
    exact ⟨rfl, rfl, rfl, rfl, rfl, rfl, rfl, rfl, rfl, rfl, rfl, rfl, rfl, rfl⟩

theorem stopOne_fields (now fade : ℚ) (tag : Option Nat) (st : AudioState)
    (iid : Nat) :
    (stopOne now fade tag st iid).soundInstances = st.soundInstances ∧
    (stopOne now fade tag st iid).soundObjs = st.soundObjs ∧
    (stopOne now fade tag st iid).soundNames = st.soundNames ∧
    (stopOne now fade tag st iid).acCreated = st.acCreated ∧
    (stopOne now fade tag st iid).currentTime = st.currentTime ∧
    (stopOne now fade tag st iid).volume = st.volume ∧
    (stopOne now fade tag st iid).masterGainValue = st.masterGainValue ∧
    (stopOne now fade tag st iid).gainConnected = st.gainConnected ∧
    (stopOne now fade tag st iid).nextInstId = st.nextInstId ∧
    (stopOne now fade tag st iid).nextSoundId = st.nextSoundId ∧
    (stopOne now fade tag st iid).instTable.map Prod.fst =
      st.instTable.map Prod.fst := by
  unfold stopOne
  cases lookupA st.instTable iid with
  | none => exact ⟨rfl, rfl, rfl, rfl, rfl, rfl, rfl, rfl, rfl, rfl, rfl⟩
  | some inst =>
    dsimp only
    by_cases hc : (inst.stopping : Prop) ∨ (tag ≠ none ∧ inst.tag ≠ tag)
    · rw [if_pos hc]
      exact ⟨rfl, rfl, rfl, rfl, rfl, rfl, rfl, rfl, rfl, rfl, rfl⟩
    · rw [if_neg hc]
      dsimp only
      exact ⟨rfl, rfl, rfl, rfl, rfl, rfl, rfl, rfl, rfl, rfl, keys_updateA _ _ _⟩

theorem stopOne_lookup (now fade : ℚ) (tag : Option Nat) (st : AudioState)
    (a iid : Nat) :
    lookupA (stopOne now fade tag st a).instTable iid =
      if iid = a then
        match lookupA st.instTable iid with
        | none => none
        | some inst =>
          if inst.stopping = false ∧ (tag = none ∨ inst.tag = tag) then
            some (stopUpd now fade inst)
          else some inst
      else lookupA st.instTable iid := by
  unfold stopOne
  cases hl : lookupA st.instTable a with
  | none =>
    by_cases hia : iid = a
    · subst hia
      rw [if_pos rfl]
      simp only [hl]
    · rw [if_neg hia]
  | some inst =>
    dsimp only
    by_cases hc : (inst.stopping : Prop) ∨ (tag ≠ none ∧ inst.tag ≠ tag)
    · rw [if_pos hc]
      by_cases hia : iid = a
      · subst hia
        rw [if_pos rfl]
        simp only [hl]
        have hcond : ¬ (inst.stopping = false ∧ (tag = none ∨ inst.tag = tag)) := by
          rcases hc with hs | ⟨ht1, ht2⟩
          · intro hx
            rw [hx.1] at hs
            exact Bool.noConfusion hs
          · intro hx
            rcases hx.2 with he | he
            · exact ht1 he
            · exact ht2 he
        rw [if_neg hcond]
      · rw [if_neg hia]
    · rw [if_neg hc]
      have hcond : inst.stopping = false ∧ (tag = none ∨ inst.tag = tag) := by
        constructor
        · cases hb : inst.stopping with
          | false => rfl
          | true => exact absurd (Or.inl (by rw [hb])) hc
        · by_cases ht : tag = none
          · exact Or.inl ht
          · by_cases ht2 : inst.tag = tag
            · exact Or.inr ht2
            · exact absurd (Or.inr ⟨ht, ht2⟩) hc
      by_cases hia : iid = a
      · subst hia
        rw [if_pos rfl]
        show lookupA (updateA st.instTable iid (fun _ => stopUpd now fade inst)) iid = _
        rw [lookupA_updateA_self, hl]
        simp only [hl]
        rw [if_pos hcond]
        rfl
      · rw [if_neg hia]
        dsimp only
        exact lookupA_updateA_ne _ _ _ _ hia

theorem stopFold_fields (now fade : ℚ) (tag : Option Nat) (l : List Nat) :
    ∀ st : AudioState,
      (l.foldl (stopOne now fade tag) st).soundInstances = st.soundInstances ∧
      (l.foldl (stopOne now fade tag) st).soundObjs = st.soundObjs ∧
      (l.foldl (stopOne now fade tag) st).soundNames = st.soundNames ∧
      (l.foldl (stopOne now fade tag) st).acCreated = st.acCreated ∧
      (l.foldl (stopOne now fade tag) st).currentTime = st.currentTime ∧
      (l.foldl (stopOne now fade tag) st).volume = st.volume ∧
      (l.foldl (stopOne now fade tag) st).masterGainValue = st.masterGainValue ∧
      (l.foldl (stopOne now fade tag) st).gainConnected = st.gainConnected ∧
      (l.foldl (stopOne now fade tag) st).nextInstId = st.nextInstId ∧
      (l.foldl (stopOne now fade tag) st).nextSoundId = st.nextSoundId ∧
      (l.foldl (stopOne now fade tag) st).instTable.map Prod.fst =
        st.instTable.map Prod.fst := by
  induction l with
  | nil =>
    intro st
    exact ⟨rfl, rfl, rfl, rfl, rfl, rfl, rfl, rfl, rfl, rfl, rfl⟩
  | cons a t ih =>
    intro st
    obtain ⟨f1, f2, f3, f4, f5, f6, f7, f8, f9, f10, f11⟩ :=
      stopOne_fields now fade tag st a
    obtain ⟨g1, g2, g3, g4, g5, g6, g7, g8, g9, g10, g11⟩ :=
      ih (stopOne now fade tag st a)
    rw [List.foldl_cons]
    exact ⟨g1.trans f1, g2.trans f2, g3.trans f3, g4.trans f4, g5.trans f5,
      g6.trans f6, g7.trans f7, g8.trans f8, g9.trans f9, g10.trans f10,
      g11.trans f11⟩

theorem stopFold_lookup (now fade : ℚ) (tag : Option Nat) (l : List Nat) :
    ∀ (st : AudioState) (iid : Nat),
      lookupA (l.foldl (stopOne now fade tag) st).instTable iid =
        if iid ∈ l then
          match lookupA st.instTable iid with
          | none => none
          | some inst =>
            if inst.stopping = false ∧ (tag = none ∨ inst.tag = tag) then
              some (stopUpd now fade inst)
            else some inst
        else lookupA st.instTable iid := by
  induction l with
  | nil =>
    intro st iid
    simp
  | cons a t ih =>
    intro st iid
    rw [List.foldl_cons, ih]
    by_cases hia : iid = a
    · subst hia
      have h1 := stopOne_lookup now fade tag st iid iid
      rw [if_pos rfl] at h1
      rw [if_pos (List.mem_cons_self iid t)]
      by_cases hit : iid ∈ t
      · rw [if_pos hit, h1]
        cases hl : lookupA st.instTable iid with
        | none => simp only [hl]
        | some inst =>
          simp only [hl]
          by_cases hcnd : inst.stopping = false ∧ (tag = none ∨ inst.tag = tag)
          · rw [if_pos hcnd]
            dsimp only
            have hns : ¬ ((stopUpd now fade inst).stopping = false ∧
                (tag = none ∨ (stopUpd now fade inst).tag = tag)) := by
              intro hx
              rw [stopUpd_stopping] at hx
              exact Bool.noConfusion hx.1
            rw [if_neg hns]
          · rw [if_neg hcnd]
            dsimp only
            rw [if_neg hcnd]
      · rw [if_neg hit, h1]
    · have h1 := stopOne_lookup now fade tag st a iid
      rw [if_neg hia] at h1
      rw [h1]
      by_cases hit : iid ∈ t
      · rw [if_pos hit, if_pos (List.mem_cons.mpr (Or.inr hit))]
      · rw [if_neg hit, if_neg (fun hx =>
          (List.mem_cons.mp hx).elim (fun he => hia he) (fun hm => hit hm))]

theorem stopUpd_inv_fields (now fade : ℚ) (inst : SoundInst) :
    (stopUpd now fade inst).soundId = inst.soundId ∧
    (stopUpd now fade inst).endedFired = inst.endedFired ∧
    (stopUpd now fade inst).endedCallbackCount = inst.endedCallbackCount ∧
    (stopUpd now fade inst).hasEndedCallback = inst.hasEndedCallback := by
  unfold stopUpd
  split_ifs <;> exact ⟨rfl, rfl, rfl, rfl⟩

theorem inv_stopOne (now fade : ℚ) (tag : Option Nat) (st : AudioState)
    (iid : Nat) (hInv : Inv st) : Inv (stopOne now fade tag st iid) := by
  unfold stopOne
  cases hl : lookupA st.instTable iid with
  | none => exact hInv
  | some inst =>
    dsimp only
    by_cases hc : (inst.stopping : Prop) ∨ (tag ≠ none ∧ inst.tag ≠ tag)
    · rw [if_pos hc]
      exact hInv
    · rw [if_neg hc]
      refine inv_updateA_instTable st iid _ hInv (fun x hx => ?_)
      rw [hl] at hx
      injection hx with hx
      subst hx
      exact stopUpd_inv_fields now fade inst

theorem inv_stopFold (now fade : ℚ) (tag : Option Nat) (l : List Nat) :
    ∀ st : AudioState, Inv st → Inv (l.foldl (stopOne now fade tag) st) := by
  induction l with
  | nil => exact fun st h => h
  | cons a t ih =>
    intro st h
    rw [List.foldl_cons]
    exact ih _ (inv_stopOne now fade tag st a h)

theorem inv_stop (st st' : AudioState) (tag : Option Nat) (fade : ℚ)
    (hInv : Inv st) (h : stop st tag fade = Except.ok st') : Inv st' := by
  unfold stop at h
  by_cases hac : st.acCreated = false
  · rw [if_pos hac] at h
    exact absurd h (by simp)
  · rw [if_neg hac] at h
    injection h with h2
    rw [← h2]
    exact inv_stopFold _ _ _ _ _ hInv

theorem inv_fireEnded (st : AudioState) (iid : Nat) (inst : SoundInst)
    (hl : lookupA st.instTable iid = some inst)
    (hne : inst.endedFired = false) (hInv : Inv st) :
    Inv (fireEnded st iid) := by
  have hmem : (iid, inst) ∈ st.instTable := lookupA_eq_some_mem hl
  have huniq : ∀ p ∈ st.instTable, p.1 = iid → p.2 = inst := by
    intro p hp hk
    have hx := lookupA_of_mem_nodup hInv.instKeysNodup hp
    rw [hk, hl] at hx
    injection hx with h2
    exact h2.symm
  have hcg : st.soundInstances.count iid = 1 := by
    simpa [hne] using hInv.mainGlobal (iid, inst) hmem
  have hcs : ∀ q ∈ st.soundObjs, q.2.instances.count iid =
      if q.1 = inst.soundId then 1 else 0 := by
    intro q hq
    simpa [hne] using hInv.mainSound (iid, inst) hmem q hq
  unfold fireEnded
  rw [hl]
  dsimp only
  refine ⟨?_, ?_, ?_, ?_, ?_, ?_, ?_, ?_, ?_, ?_⟩
  all_goals dsimp only
  · rw [keys_updateA]
    exact hInv.instKeysNodup
  · intro p hp
    obtain ⟨q, hq, hkey, _⟩ := mem_updateA hp
    rw [hkey]
    exact hInv.instKeysLt q hq
  · rw [keys_updateA]
    exact hInv.soundKeysNodup
  · intro p hp
    obtain ⟨q, hq, hkey, _⟩ := mem_updateA hp
    rw [hkey]
    exact hInv.soundKeysLt q hq
  · intro p hp
    obtain ⟨q, hq, hkey, hval⟩ := mem_updateA hp
    rcases hval with ⟨_, hpq⟩ | ⟨hk, he⟩
    · rw [hpq]
      exact hInv.instSoundIdLt q hq
    · rw [he]
      exact hInv.instSoundIdLt q hq
  · intro iid' hiid'
    have hmem' : iid' ∈ st.soundInstances := List.mem_of_mem_erase hiid'
    obtain ⟨i, hi⟩ := hInv.globalSub iid' hmem'
    by_cases hik : iid' = iid
    · subst hik
      exact ⟨_, by rw [lookupA_updateA_self, hi]; rfl⟩
    · exact ⟨i, by rw [lookupA_updateA_ne _ _ _ _ hik]; exact hi⟩
  · intro q' hq' iid' hiid'
    obtain ⟨q, hq, hkey, hval⟩ := mem_updateA hq'
    have hiid'' : iid' ∈ q.2.instances := by
      rcases hval with ⟨_, hpq⟩ | ⟨hk, he⟩
      · rw [hpq] at hiid'
        exact hiid'
      · rw [he] at hiid'
        exact List.mem_of_mem_erase hiid'
    obtain ⟨i, hi, hsd⟩ := hInv.soundListSub q hq iid' hiid''
    by_cases hik : iid' = iid
    · subst hik
      refine ⟨_, by rw [lookupA_updateA_self, hi]; rfl, ?_⟩
      rw [hkey]
      exact hsd
    · exact ⟨i, by rw [lookupA_updateA_ne _ _ _ _ hik]; exact hi,
        by rw [hkey]; exact hsd⟩
  · intro p hp
    obtain ⟨q, hq, hkey, hval⟩ := mem_updateA hp
    rcases hval with ⟨hkne, hpq⟩ | ⟨hk, he⟩
    · rw [hpq, List.count_erase_of_ne hkne]
      exact hInv.mainGlobal q hq
    · have hqi : q.2 = inst := huniq q hq hk
      rw [hkey, hk, he, hqi, List.count_erase_self, hcg]
      simp
  · intro p hp q' hq'
    obtain ⟨q, hq, hkey, hval⟩ := mem_updateA hp
    obtain ⟨s, hs, hskey, hsval⟩ := mem_updateA hq'
    rcases hval with ⟨hkne, hpq⟩ | ⟨hk, he⟩
    · rw [hpq]
      rcases hsval with ⟨_, hsq⟩ | ⟨hsk, hse⟩
      · rw [hsq]
        exact hInv.mainSound q hq s hs
      · rw [hse, hskey]
        dsimp only
        rw [List.count_erase_of_ne hkne]
        exact hInv.mainSound q hq s hs
    · have hqi : q.2 = inst := huniq q hq hk
      rw [hkey, hk, he, hqi]
      rcases hsval with ⟨hskne, hsq⟩ | ⟨hsk, hse⟩
      · rw [hsq, hcs s hs, if_neg hskne]
        rw [if_neg (fun hx => Bool.noConfusion hx.1)]
      · rw [hse]
        dsimp only
        rw [List.count_erase_self, hcs s hs, if_pos hsk]
        rw [if_neg (fun hx => Bool.noConfusion hx.1)]
  · intro p hp
    obtain ⟨q, hq, hkey, hval⟩ := mem_updateA hp
    rcases hval with ⟨_, hpq⟩ | ⟨hk, he⟩
    · rw [hpq]
      exact hInv.cbOnce q hq
    · have hqi : q.2 = inst := huniq q hq hk
      rw [he, hqi]
      have hc0 : inst.endedCallbackCount = 0 := by
        simpa [hne] using hInv.cbOnce (iid, inst) hmem
      dsimp only
      rw [hc0]
      cases hcb : inst.hasEndedCallback <;> simp [hcb]

theorem inv_initState : Inv initState := by
  refine ⟨?_, ?_, ?_, ?_, ?_, ?_, ?_, ?_, ?_, ?_⟩ <;> simp [initState]

theorem inv_step {st st' : AudioState} (h : Step st st') (hInv : Inv st) :
    Inv st' := by
  cases h with
  | tick dt hdt =>
    exact inv_tick st dt hInv
  | createCtx s2 e heq =>
    have hx := inv_createAudioContext st hInv
    rw [heq] at hx
    exact hx
  | setVol s2 v e heq =>
    have hx := inv_setGlobalVolume st v hInv
    rw [heq] at hx
    exact hx
  | load s2 name info outcome e hac heq =>
    have hx := inv_loadOne st name info outcome hInv
    rw [heq] at hx
    exact hx
  | playStep _ soundName volume loop tag offset fadeInSeconds soim hasCb r heq =>
    exact inv_play st st' soundName volume loop tag offset fadeInSeconds soim
      hasCb r hInv heq
  | stopStep _ tag fade heq =>
    exact inv_stop st st' tag fade hInv heq
  | endedStep iid inst hlook honce =>
    exact inv_fireEnded st iid inst hlook honce hInv

theorem reachable_inv {st : AudioState} (h : Reachable st) : Inv st := by
  induction h with
  | init => exact inv_initState
  | step _ hstep ih => exact inv_step hstep ih

/-! Shared play lemmas. -/

theorem acCreated_not_false {st : AudioState} (hac : st.acCreated = true) :
    ¬ (st.acCreated = false) := by
  rw [hac]
  exact fun hx => Bool.noConfusion hx

theorem play_noop_zero (st : AudioState) (soundName : String) (sid : Nat)
    (sound : Sound) (volume : ℚ) (loop : Bool) (tag : Option Nat)
    (offset fadeInSeconds : ℚ) (stopOldestIfMax hasCb : Bool)
    (hac : st.acCreated = true)
    (hget : getSound st soundName = some (sid, sound))
    (hz : sound.maxSources ≤ 0) :
    play st soundName volume loop tag offset fadeInSeconds stopOldestIfMax
      hasCb = Except.ok (st, none) := by
  unfold play
  rw [if_neg (acCreated_not_false hac)]
  simp only [hget]
  rw [if_pos hz]

theorem play_noop_cap (st : AudioState) (soundName : String) (sid : Nat)
    (sound : Sound) (volume : ℚ) (loop : Bool) (tag : Option Nat)
    (offset fadeInSeconds : ℚ) (hasCb : Bool)
    (hac : st.acCreated = true)
    (hget : getSound st soundName = some (sid, sound))
    (hcap : (sound.instances.length : Int) ≥ sound.maxSources) :
    play st soundName volume loop tag offset fadeInSeconds false hasCb
      = Except.ok (st, none) := by
  unfold play
  rw [if_neg (acCreated_not_false hac)]
  simp only [hget]
  by_cases hms : sound.maxSources ≤ 0
  · rw [if_pos hms]
  · rw [if_neg hms, if_pos hcap, if_neg (by exact fun hx => Bool.noConfusion hx)]

/-! Claim theorems. -/

/-- C4: on a loaded sound, `play` returns null (`Except.ok` with no
instance), not an error, both when the sound's `maxSources` is zero and
when the cap is reached with `stopOldestIfMax = false`; the returned state
is the unchanged input state, so the existing instances and both instance
lists are untouched. -/
theorem play_cap_noop_returns_null (st : AudioState) (soundName : String)
    (sid : Nat) (sound : Sound) (volume : ℚ) (loop : Bool) (tag : Option Nat)
    (offset fadeInSeconds : ℚ) (hasCb : Bool)
    (hac : st.acCreated = true)
    (hget : getSound st soundName = some (sid, sound)) :
    (sound.maxSources = 0 →
      ∀ stopOldestIfMax : Bool,
        play st soundName volume loop tag offset fadeInSeconds stopOldestIfMax
          hasCb = Except.ok (st, none)) ∧
    ((sound.instances.length : Int) ≥ sound.maxSources →
      play st soundName volume loop tag offset fadeInSeconds false hasCb
        = Except.ok (st, none)) := by
  constructor
  · intro hz soim
    exact play_noop_zero st soundName sid sound volume loop tag offset
      fadeInSeconds soim hasCb hac hget (by rw [hz])
  · intro hcap
    exact play_noop_cap st soundName sid sound volume loop tag offset
      fadeInSeconds hasCb hac hget hcap

/-- C4 witness: in the demo state the `click` sound is at its cap of 1, and
`play` with `stopOldestIfMax = false` returns the unchanged state and no
instance. -/
theorem play_cap_noop_returns_null_witness :
    play demoS3 "click" 1 false none 0 0 false false
      = Except.ok (demoS3, none) :=
  (play_cap_noop_returns_null demoS3 "click" 0
      ((lookupA demoS3.soundObjs 0).getD
        { buffer := demoBuffer, maxSources := 1, baseVolume := 1,
          instances := [0] })
      1 false none 0 0 false (by decide) (by decide)).2 (by decide)

/-- C7: `play` on a sound name absent from the sound table raises the
lookup error naming the sound, rather than returning null; since the
error is raised before any bookkeeping, no instance is created and the
state is unchanged. -/
theorem play_unknown_sound_error (st : AudioState) (soundName : String)
    (volume : ℚ) (loop : Bool) (tag : Option Nat) (offset fadeInSeconds : ℚ)
    (stopOldestIfMax hasCb : Bool)
    (hac : st.acCreated = true) (hmiss : getSound st soundName = none) :
    play st soundName volume loop tag offset fadeInSeconds stopOldestIfMax
      hasCb = Except.error (AudioError.unknownSound soundName) := by
  unfold play
  rw [if_neg (acCreated_not_false hac)]
  simp only [hmiss]

/-- C7 witness: playing the missing name on an empty sound table raises the
lookup error. -/
theorem play_unknown_sound_error_witness :
    play demoS1 "missing" 1 false none 0 0 true false
      = Except.error (AudioError.unknownSound "missing") :=
  play_unknown_sound_error demoS1 "missing" 1 false none 0 0 true false
    (by decide) (by decide)

/-- C6: after `setGlobalVolume(v)` on a created context, the call
succeeds, the stored volume and the master gain value equal `v`, and the
tracked connected flag is true exactly when `v > 0` — independent of the
prior connected state, so this holds after any sequence of
`setGlobalVolume` calls, and setting volume 0 then positive reconnects. -/
theorem setGlobalVolume_consistency (st : AudioState) (v : ℚ)
    (hac : st.acCreated = true) :
    ∀ st' e, setGlobalVolume st v = (st', e) →
      e = none ∧ st'.masterGainValue = v ∧ st'.volume = v ∧
      (st'.gainConnected = true ↔ v > 0) := by
  intro st' e h
  unfold setGlobalVolume at h
  dsimp only at h
  split_ifs at h with h1 h2 h3
  · rw [hac] at h1
    exact absurd h1 (by simp)
  · injection h with ha hb
    subst ha
    subst hb
    refine ⟨rfl, rfl, rfl, ?_⟩
    constructor
    · intro hx
      exact absurd hx (by simp)
    · intro hv
      exact absurd hv (not_lt.mpr h2.1)
  · injection h with ha hb
    subst ha
    subst hb
    refine ⟨rfl, rfl, rfl, ?_⟩
    constructor
    · intro _
      exact h3.1
    · intro _
      rfl
  · injection h with ha hb
    subst ha
    subst hb
    refine ⟨rfl, rfl, rfl, ?_⟩
    constructor
    · intro hgc
      by_cases hv : v > 0
      · exact hv
      · exact absurd ⟨not_lt.mp hv, hgc⟩ h2
    · intro hv
      by_cases hgc : st.gainConnected = true
      · exact hgc
      · exact absurd ⟨hv, by simpa using hgc⟩ h3

/-- C6 witness: setting volume 0 disconnects, and a later positive volume
is connected again, by two applications at concrete states. -/
theorem setGlobalVolume_consistency_witness :
    ((setGlobalVolume demoS1 0).1.gainConnected = true ↔ (0 : ℚ) > 0) ∧
    ((setGlobalVolume (setGlobalVolume demoS1 0).1 (1/2)).1.gainConnected
        = true ↔ (1/2 : ℚ) > 0) := by
  constructor
  · exact (setGlobalVolume_consistency demoS1 0 (by decide)
      (setGlobalVolume demoS1 0).1 (setGlobalVolume demoS1 0).2 rfl).2.2.2
  · exact (setGlobalVolume_consistency (setGlobalVolume demoS1 0).1 (1/2)
      (by decide)
      (setGlobalVolume (setGlobalVolume demoS1 0).1 (1/2)).1
      (setGlobalVolume (setGlobalVolume demoS1 0).1 (1/2)).2 rfl).2.2.2

theorem stop_ok_elim {st st' : AudioState} {tag : Option Nat} {fade : ℚ}
    (h : stop st tag fade = Except.ok st') :
    st.acCreated = true ∧
    st' = st.soundInstances.reverse.foldl
      (stopOne st.currentTime fade tag) st := by
  unfold stop at h
  by_cases hac : st.acCreated = false
  · rw [if_pos hac] at h
    exact absurd h (by simp)
  · rw [if_neg hac] at h
    injection h with h2
    refine ⟨?_, h2.symm⟩
    cases hb : st.acCreated with
    | true => rfl
    | false => exact absurd hb hac

theorem getSound_congr {st st' : AudioState}
    (h1 : st'.soundNames = st.soundNames) (h2 : st'.soundObjs = st.soundObjs)
    (n : String) : getSound st' n = getSound st n := by
  unfold getSound
  rw [h1, h2]

/-- C3: a `stop(tag, fadeOutSeconds)` call leaves instances outside the
global list untouched, and for each live instance: when it is not already
stopping and matches the filter (every instance for a null tag, else
exactly equal tags) it is marked stopping and either stopped immediately
(`fade <= 0`: one `source.stop()` call, no ramp) or scheduled with an
exponential ramp to the floor value over the fade time and a delayed
`source.stop` at that future time; instances already stopping or with a
non-matching (including null) tag keep their exact record. -/
theorem stop_filter_and_actions (st st' : AudioState) (tag : Option Nat)
    (fade : ℚ) (h : stop st tag fade = Except.ok st') :
    (∀ iid, iid ∉ st.soundInstances →
      lookupA st'.instTable iid = lookupA st.instTable iid) ∧
    ∀ iid inst, lookupA st.instTable iid = some inst →
      (iid ∈ st.soundInstances → inst.stopping = false →
        (tag = none ∨ inst.tag = tag) →
        lookupA st'.instTable iid = some (stopUpd st.currentTime fade inst) ∧
        (fade ≤ 0 →
          stopUpd st.currentTime fade inst =
            { inst with
                stopping := true
                stopCalls := inst.stopCalls ++ [none] }) ∧
        (0 < fade →
          stopUpd st.currentTime fade inst =
            { inst with
                stopping := true
                gainEvents := inst.gainEvents ++
                  [GainEvent.setCurrentValueAtTime st.currentTime,
                   GainEvent.expRampToValueAtTime fadeFloor
                     (st.currentTime + fade)]
                stopCalls := inst.stopCalls ++
                  [some (st.currentTime + fade)] })) ∧
      ((inst.stopping = true ∨ (tag ≠ none ∧ inst.tag ≠ tag)) →
        lookupA st'.instTable iid = some inst) := by
  obtain ⟨hac, hst⟩ := stop_ok_elim h
  subst hst
  have hlk := fun iid => stopFold_lookup st.currentTime fade tag
    st.soundInstances.reverse st iid
  constructor
  · intro iid hnot
    rw [hlk iid, if_neg (fun hx => hnot (List.mem_reverse.mp hx))]
  · intro iid inst hinst
    constructor
    · intro hmem hstop htag
      refine ⟨?_, ?_, ?_⟩
      · rw [hlk iid, if_pos (List.mem_reverse.mpr hmem)]
        simp only [hinst]
        rw [if_pos ⟨hstop, htag⟩]
      · intro hf
        unfold stopUpd
        rw [if_pos hf]
      · intro hf
        unfold stopUpd
        rw [if_neg (not_le.mpr hf)]
    · intro hcond
      by_cases hmem : iid ∈ st.soundInstances
      · rw [hlk iid, if_pos (List.mem_reverse.mpr hmem)]
        simp only [hinst]
        have hnc : ¬ (inst.stopping = false ∧ (tag = none ∨ inst.tag = tag)) := by
          rcases hcond with hs | ⟨h1, h2⟩
          · intro hx
            rw [hs] at hx
            exact Bool.noConfusion hx.1
          · intro hx
            rcases hx.2 with he | he
            · exact h1 he
            · exact h2 he
        rw [if_neg hnc]
      · rw [hlk iid, if_neg (fun hx => hmem (List.mem_reverse.mp hx))]
        exact hinst

/-- C3 witness: stopping tag 7 with a 2-second fade in the demo state
fades out the tagged instance and leaves the untagged one untouched. -/
theorem stop_filter_and_actions_witness :
    lookupA demoS5.instTable 1 = some (stopUpd demoS4.currentTime 2 demoInst1) ∧
    lookupA demoS5.instTable 0 = some demoInst0v4 := by
  have hthm := stop_filter_and_actions demoS4 demoS5 (some 7) 2 (by rfl)
  have hl1 : lookupA demoS4.instTable 1 = some demoInst1 := by rfl
  have hl0 : lookupA demoS4.instTable 0 = some demoInst0v4 := by rfl
  have h1 := (hthm.2 1 demoInst1 hl1).1
  have h2 := (hthm.2 0 demoInst0v4 hl0).2
  refine ⟨(h1 (by decide) (by rfl) (Or.inr (by rfl))).1,
    h2 (Or.inr ⟨?_, ?_⟩)⟩
  · intro hx
    exact Option.noConfusion hx
  · intro hx
    rw [show demoInst0v4.tag = none from rfl] at hx
    exact Option.noConfusion hx

/-- C8: `stop` removes nothing from the global instance list, from any
sound's instance list, or from the sound table, and changes no instance
field other than the `stopping` flag and the gain/source automation it
schedules (`tag`, `startTime`, the owning sound, the node identities and
the ended-handler state are preserved); consequently an instance fading
out still counts toward `maxSources`, and a subsequent `play` with
`stopOldestIfMax = false` on a sound at its cap still returns null. -/
theorem stop_preserves_lists_and_cap (st st' : AudioState) (tag : Option Nat)
    (fade : ℚ) (h : stop st tag fade = Except.ok st') :
    st'.soundInstances = st.soundInstances ∧
    st'.soundObjs = st.soundObjs ∧
    st'.soundNames = st.soundNames ∧
    (∀ iid inst, lookupA st.instTable iid = some inst →
      ∃ inst', lookupA st'.instTable iid = some inst' ∧
        inst'.tag = inst.tag ∧ inst'.startTime = inst.startTime ∧
        inst'.soundId = inst.soundId ∧ inst'.gainValue = inst.gainValue ∧
        inst'.gainConnectedToMaster = inst.gainConnectedToMaster ∧
        inst'.srcLoop = inst.srcLoop ∧
        inst'.srcLoopStart = inst.srcLoopStart ∧
        inst'.srcLoopEnd = inst.srcLoopEnd ∧
        inst'.srcBuffer = inst.srcBuffer ∧
        inst'.startedAt = inst.startedAt ∧
        inst'.startOffset = inst.startOffset ∧
        inst'.hasEndedCallback = inst.hasEndedCallback ∧
        inst'.endedFired = inst.endedFired ∧
        inst'.endedCallbackCount = inst.endedCallbackCount) ∧
    (∀ soundName sid sound (volume : ℚ) (loop : Bool) (tg : Option Nat)
        (offset fadeIn : ℚ) (hasCb : Bool),
      getSound st soundName = some (sid, sound) →
      (sound.instances.length : Int) ≥ sound.maxSources →
      play st' soundName volume loop tg offset fadeIn false hasCb
        = Except.ok (st', none)) := by
  obtain ⟨hac, hst⟩ := stop_ok_elim h
  subst hst
  obtain ⟨f1, f2, f3, f4, f5, f6, f7, f8, f9, f10, f11⟩ :=
    stopFold_fields st.currentTime fade tag st.soundInstances.reverse st
  refine ⟨f1, f2, f3, ?_, ?_⟩
  · intro iid inst hinst
    have hlk := stopFold_lookup st.currentTime fade tag
      st.soundInstances.reverse st iid
    by_cases hmem : iid ∈ st.soundInstances.reverse
    · rw [if_pos hmem] at hlk
      simp only [hinst] at hlk
      by_cases hcnd : inst.stopping = false ∧ (tag = none ∨ inst.tag = tag)
      · rw [if_pos hcnd] at hlk
        obtain ⟨s1, s2, s3, s4, s5, s6, s7, s8, s9, s10, s11, s12, s13, s14⟩ :=
          stopUpd_fields st.currentTime fade inst
        exact ⟨stopUpd st.currentTime fade inst, hlk, s2, s3, s1, s4, s5, s6,
          s7, s8, s9, s10, s11, s12, s13, s14⟩
      · rw [if_neg hcnd] at hlk
        exact ⟨inst, hlk, rfl, rfl, rfl, rfl, rfl, rfl, rfl, rfl, rfl, rfl,
          rfl, rfl, rfl, rfl⟩
    · rw [if_neg hmem] at hlk
      rw [hinst] at hlk
      exact ⟨inst, hlk, rfl, rfl, rfl, rfl, rfl, rfl, rfl, rfl, rfl, rfl,
        rfl, rfl, rfl, rfl⟩
  · intro soundName sid sound volume loop tg offset fadeIn hasCb hget hcap
    refine play_noop_cap _ soundName sid sound volume loop tg offset fadeIn
      hasCb ?_ ?_ hcap
    · rw [f4]
      exact hac
    · rw [getSound_congr f3 f2]
      exact hget

/-- C8 witness: an immediate `stop()` on the demo state leaves both
instance lists unchanged, and a follow-up non-evicting `play` on the full
sound still returns null. -/
theorem stop_preserves_lists_and_cap_witness :
    (match stop demoS4 none 0 with
     | Except.ok s => s
     | Except.error _ => initState).soundInstances
      = demoS4.soundInstances := by
  exact (stop_preserves_lists_and_cap demoS4 _ none 0 (by rfl)).1

/-! Play-path reduction lemmas. -/

theorem table_fresh_lookup_none {st : AudioState}
    (hfresh : ∀ p ∈ st.instTable, p.1 < st.nextInstId) :
    lookupA st.instTable st.nextInstId = none := by
  apply lookupA_eq_none_of_not_mem
  intro hmem
  obtain ⟨p, hp, hfst⟩ := List.mem_map.mp hmem
  exact lt_irrefl _ (hfst ▸ hfresh p hp)

theorem max_pos_of_room {sound : Sound}
    (hroom : ¬ ((sound.instances.length : Int) ≥ sound.maxSources)) :
    ¬ sound.maxSources ≤ 0 := by
  intro hle
  exact hroom (le_trans hle (by exact_mod_cast Nat.zero_le _))

theorem play_room_eq (st : AudioState) (soundName : String) (sid : Nat)
    (sound : Sound) (volume : ℚ) (loop : Bool) (tag : Option Nat)
    (offset fadeInSeconds : ℚ) (soim hasCb : Bool)
    (hac : st.acCreated = true)
    (hget : getSound st soundName = some (sid, sound))
    (hroom : ¬ ((sound.instances.length : Int) ≥ sound.maxSources)) :
    play st soundName volume loop tag offset fadeInSeconds soim hasCb =
      playGainSetup st sid sound volume loop tag offset fadeInSeconds hasCb := by
  unfold play
  rw [if_neg (acCreated_not_false hac)]
  simp only [hget]
  rw [if_neg (max_pos_of_room hroom), if_neg hroom]

theorem play_evict_eq (st : AudioState) (soundName : String) (sid : Nat)
    (sound : Sound) (oldestId : Nat) (rest : List Nat) (volume : ℚ)
    (loop : Bool) (tag : Option Nat) (offset fadeInSeconds : ℚ) (hasCb : Bool)
    (hac : st.acCreated = true)
    (hget : getSound st soundName = some (sid, sound))
    (hmax : 0 < sound.maxSources)
    (hcap : (sound.instances.length : Int) ≥ sound.maxSources)
    (hhead : sound.instances = oldestId :: rest) :
    play st soundName volume loop tag offset fadeInSeconds true hasCb =
      playGainSetup (evictOldest st oldestId) sid sound volume loop tag offset
        fadeInSeconds hasCb := by
  unfold play
  rw [if_neg (acCreated_not_false hac)]
  simp only [hget]
  rw [if_neg (not_le.mpr hmax), if_pos hcap, if_pos trivial]
  simp only [hhead, List.head?_cons]

theorem playGainSetup_nofade (st : AudioState) (sid : Nat) (sound : Sound)
    (volume : ℚ) (loop : Bool) (tag : Option Nat) (offset fadeInSeconds : ℚ)
    (hasCb : Bool) (hf : fadeInSeconds ≤ 0) :
    playGainSetup st sid sound volume loop tag offset fadeInSeconds hasCb =
      Except.ok (playFinish st sid sound loop tag offset hasCb
        (sound.baseVolume * volume) []) := by
  unfold playGainSetup
  rw [if_pos hf]

theorem playGainSetup_fade (st : AudioState) (sid : Nat) (sound : Sound)
    (volume : ℚ) (loop : Bool) (tag : Option Nat) (offset fadeInSeconds : ℚ)
    (hasCb : Bool) (hf : ¬ fadeInSeconds ≤ 0)
    (ht : ¬ sound.baseVolume * volume = 0) :
    playGainSetup st sid sound volume loop tag offset fadeInSeconds hasCb =
      Except.ok (playFinish st sid sound loop tag offset hasCb 1
        [GainEvent.setValueAtTime fadeFloor st.currentTime,
         GainEvent.expRampToValueAtTime (sound.baseVolume * volume)
           (st.currentTime + fadeInSeconds)]) := by
  unfold playGainSetup
  rw [if_neg hf, if_neg ht]

theorem playGainSetup_fade_zero (st : AudioState) (sid : Nat) (sound : Sound)
    (volume : ℚ) (loop : Bool) (tag : Option Nat) (offset fadeInSeconds : ℚ)
    (hasCb : Bool) (hf : ¬ fadeInSeconds ≤ 0)
    (ht : sound.baseVolume * volume = 0) :
    playGainSetup st sid sound volume loop tag offset fadeInSeconds hasCb =
      Except.error AudioError.rampTargetZero := by
  unfold playGainSetup
  rw [if_neg hf, if_pos ht]

theorem playGainSetup_ok_state {st₁ st' : AudioState} {sid : Nat}
    {sound : Sound} {volume : ℚ} {loop : Bool} {tag : Option Nat}
    {offset fadeInSeconds : ℚ} {hasCb : Bool} {r : Option Nat}
    (h : playGainSetup st₁ sid sound volume loop tag offset fadeInSeconds hasCb
      = Except.ok (st', r)) :
    ∃ gv evs, st' = (playFinish st₁ sid sound loop tag offset hasCb gv evs).1 ∧
      r = some st₁.nextInstId := by
  unfold playGainSetup at h
  dsimp only at h
  by_cases h1 : fadeInSeconds ≤ 0
  · rw [if_pos h1] at h
    injection h with h2x
    have hsnd : some st₁.nextInstId = r := congrArg Prod.snd h2x
    exact ⟨_, _, by rw [h2x], hsnd.symm⟩
  · rw [if_neg h1] at h
    by_cases h2 : sound.baseVolume * volume = 0
    · rw [if_pos h2] at h
      exact absurd h (by simp)
    · rw [if_neg h2] at h
      injection h with h2x
      have hsnd : some st₁.nextInstId = r := congrArg Prod.snd h2x
      exact ⟨_, _, by rw [h2x], hsnd.symm⟩

theorem playFinish_lookup_new (st : AudioState) (sid : Nat) (sound : Sound)
    (loop : Bool) (tag : Option Nat) (offset : ℚ) (hasCb : Bool) (gv : ℚ)
    (evs : List GainEvent)
    (hfresh : ∀ p ∈ st.instTable, p.1 < st.nextInstId) :
    lookupA (playFinish st sid sound loop tag offset hasCb gv evs).1.instTable
      st.nextInstId = some
      { soundId := sid
        tag := tag
        stopping := false
        startTime := st.currentTime
        gainValue := gv
        gainEvents := evs
        gainConnectedToMaster := true
        srcLoop := loop
        srcLoopStart := if loop ∧ offset > 0 then offset else 0
        srcLoopEnd := if loop ∧ offset > 0 then sound.buffer.duration else 0
        srcBuffer := sound.buffer
        stopCalls := []
        startedAt := st.currentTime
        startOffset := offset
        hasEndedCallback := hasCb
        endedFired := false
        endedCallbackCount := 0 } := by
  unfold playFinish
  dsimp only
  rw [lookupA_append_right _ (table_fresh_lookup_none hfresh)]
  simp

theorem playFinish_lookup_old (st : AudioState) (sid : Nat) (sound : Sound)
    (loop : Bool) (tag : Option Nat) (offset : ℚ) (hasCb : Bool) (gv : ℚ)
    (evs : List GainEvent) (iid : Nat) (hne : iid ≠ st.nextInstId) :
    lookupA (playFinish st sid sound loop tag offset hasCb gv evs).1.instTable
      iid = lookupA st.instTable iid := by
  unfold playFinish
  dsimp only
  cases hl : lookupA st.instTable iid with
  | some v => exact lookupA_append_left _ hl
  | none =>
    rw [lookupA_append_right _ hl]
    simp [Ne.symm hne]

/-- C10: with room under the cap, a `play` with `fadeInSeconds > 0`
schedules `setValueAtTime(1e-4, now)` followed by an exponential ramp
whose target is `baseVolume * volume`; under the precondition
`baseVolume * volume > 0` the platform's zero-target RangeError branch is
unreachable and the call succeeds, while a zero product on the fade path
raises exactly that error; with `fadeInSeconds <= 0` any product, zero
included, is accepted by a direct gain-value assignment with no ramp. -/
theorem fadeIn_ramp_target_safety (st : AudioState) (soundName : String)
    (sid : Nat) (sound : Sound) (volume : ℚ) (loop : Bool) (tag : Option Nat)
    (offset fadeInSeconds : ℚ) (soim hasCb : Bool)
    (hac : st.acCreated = true)
    (hget : getSound st soundName = some (sid, sound))
    (hroom : ¬ ((sound.instances.length : Int) ≥ sound.maxSources))
    (hfresh : ∀ p ∈ st.instTable, p.1 < st.nextInstId) :
    (0 < fadeInSeconds → 0 < sound.baseVolume * volume →
      ∃ st', play st soundName volume loop tag offset fadeInSeconds soim hasCb
          = Except.ok (st', some st.nextInstId) ∧
        ∃ inst, lookupA st'.instTable st.nextInstId = some inst ∧
          inst.gainEvents =
            [GainEvent.setValueAtTime fadeFloor st.currentTime,
             GainEvent.expRampToValueAtTime (sound.baseVolume * volume)
               (st.currentTime + fadeInSeconds)]) ∧
    (fadeInSeconds ≤ 0 →
      ∃ st', play st soundName volume loop tag offset fadeInSeconds soim hasCb
          = Except.ok (st', some st.nextInstId) ∧
        ∃ inst, lookupA st'.instTable st.nextInstId = some inst ∧
          inst.gainValue = sound.baseVolume * volume ∧ inst.gainEvents = []) ∧
    (0 < fadeInSeconds → sound.baseVolume * volume = 0 →
      play st soundName volume loop tag offset fadeInSeconds soim hasCb
        = Except.error AudioError.rampTargetZero) := by
  have hred := play_room_eq st soundName sid sound volume loop tag offset
    fadeInSeconds soim hasCb hac hget hroom
  refine ⟨?_, ?_, ?_⟩
  · intro hfi hpos
    rw [hred, playGainSetup_fade _ _ _ _ _ _ _ _ _ (not_le.mpr hfi)
      (ne_of_gt hpos)]
    have hlk := playFinish_lookup_new st sid sound loop tag offset hasCb 1
      [GainEvent.setValueAtTime fadeFloor st.currentTime,
       GainEvent.expRampToValueAtTime (sound.baseVolume * volume)
         (st.currentTime + fadeInSeconds)] hfresh
    exact ⟨_, rfl, _, hlk, rfl⟩
  · intro hfi
    rw [hred, playGainSetup_nofade _ _ _ _ _ _ _ _ _ hfi]
    have hlk := playFinish_lookup_new st sid sound loop tag offset hasCb
      (sound.baseVolume * volume) [] hfresh
    exact ⟨_, rfl, _, hlk, rfl, rfl⟩
  · intro hfi hzero
    rw [hred, playGainSetup_fade_zero _ _ _ _ _ _ _ _ _ (not_le.mpr hfi) hzero]

theorem playFinish_lookup_new' (st : AudioState) (sid : Nat) (sound : Sound)
    (loop : Bool) (tag : Option Nat) (offset : ℚ) (hasCb : Bool) (gv : ℚ)
    (evs : List GainEvent) (iidNew : Nat) (hiid : iidNew = st.nextInstId)
    (hfresh : ∀ p ∈ st.instTable, p.1 < st.nextInstId) :
    lookupA (playFinish st sid sound loop tag offset hasCb gv evs).1.instTable
      iidNew = some
      { soundId := sid
        tag := tag
        stopping := false
        startTime := st.currentTime
        gainValue := gv
        gainEvents := evs
        gainConnectedToMaster := true
        srcLoop := loop
        srcLoopStart := if loop ∧ offset > 0 then offset else 0
        srcLoopEnd := if loop ∧ offset > 0 then sound.buffer.duration else 0
        srcBuffer := sound.buffer
        stopCalls := []
        startedAt := st.currentTime
        startOffset := offset
        hasEndedCallback := hasCb
        endedFired := false
        endedCallbackCount := 0 } := by
  subst hiid
  exact playFinish_lookup_new st sid sound loop tag offset hasCb gv evs hfresh

theorem evictOldest_fresh {st : AudioState} (oldestId : Nat)
    (hfresh : ∀ p ∈ st.instTable, p.1 < st.nextInstId) :
    ∀ p ∈ (evictOldest st oldestId).instTable,
      p.1 < (evictOldest st oldestId).nextInstId := by
  intro p hp
  unfold evictOldest at hp
  dsimp only at hp
  obtain ⟨q, hq, hkey, _⟩ := mem_updateA hp
  rw [hkey]
  exact hfresh q hq

theorem evictOldest_lookup {st : AudioState} {oldestId : Nat}
    {oldInst : SoundInst} (hlook : lookupA st.instTable oldestId = some oldInst) :
    lookupA (evictOldest st oldestId).instTable oldestId =
      some { oldInst with stopCalls := oldInst.stopCalls ++ [none] } := by
  unfold evictOldest
  dsimp only
  rw [lookupA_updateA_self, hlook]
  rfl

/-- C9: the eviction inside `play` calls `stop()` on the oldest instance's
source unconditionally — the oldest's `stopping` flag is neither read (an
already-stopping instance is still a valid eviction target and its source
receives one more stop call) nor written (it keeps its prior value), and
no fade is scheduled on it; an evicted instance whose `stopping` is still
false therefore keeps counting as playing for `isTagPlaying` until its
ended event fires. -/
theorem eviction_ignores_stopping_flag (st st' : AudioState)
    (soundName : String) (sid : Nat) (sound : Sound) (oldestId : Nat)
    (rest : List Nat) (oldInst : SoundInst) (volume : ℚ) (loop : Bool)
    (tag : Option Nat) (offset fadeInSeconds : ℚ) (hasCb : Bool)
    (r : Option Nat)
    (hac : st.acCreated = true)
    (hget : getSound st soundName = some (sid, sound))
    (hmax : 0 < sound.maxSources)
    (hcap : (sound.instances.length : Int) ≥ sound.maxSources)
    (hhead : sound.instances = oldestId :: rest)
    (hlook : lookupA st.instTable oldestId = some oldInst)
    (hmemG : oldestId ∈ st.soundInstances)
    (hfresh : ∀ p ∈ st.instTable, p.1 < st.nextInstId)
    (h : play st soundName volume loop tag offset fadeInSeconds true hasCb
      = Except.ok (st', r)) :
    (∃ inst', lookupA st'.instTable oldestId = some inst' ∧
      inst'.stopCalls = oldInst.stopCalls ++ [none] ∧
      inst'.stopping = oldInst.stopping ∧
      inst'.gainEvents = oldInst.gainEvents) ∧
    (oldInst.stopping = false → isTagPlaying st' oldInst.tag = true) := by
  rw [play_evict_eq st soundName sid sound oldestId rest volume loop tag
    offset fadeInSeconds hasCb hac hget hmax hcap hhead] at h
  obtain ⟨gv, evs, hst', _⟩ := playGainSetup_ok_state h
  have hne : oldestId ≠ st.nextInstId :=
    fun he => lt_irrefl _ (he ▸ hfresh _ (lookupA_eq_some_mem hlook))
  have hlk2 : lookupA st'.instTable oldestId =
      some { oldInst with stopCalls := oldInst.stopCalls ++ [none] } := by
    rw [hst', playFinish_lookup_old (evictOldest st oldestId) sid sound loop
      tag offset hasCb gv evs oldestId hne]
    exact evictOldest_lookup hlook
  refine ⟨⟨_, hlk2, rfl, rfl, rfl⟩, ?_⟩
  intro hstop
  unfold isTagPlaying
  apply List.any_eq_true.mpr
  refine ⟨oldestId, ?_, ?_⟩
  · rw [hst']
    show oldestId ∈ st.soundInstances ++ [st.nextInstId]
    exact List.mem_append_left _ hmemG
  · simp only [hlk2]
    simp [hstop]

/-- C9 witness: the second `play` on the full single-source demo sound
evicts the first instance — its source gets one stop call, its `stopping`
flag stays false, and `isTagPlaying` still counts it. -/
theorem eviction_ignores_stopping_flag_witness :
    (∃ inst', lookupA demoS4.instTable 0 = some inst' ∧
      inst'.stopCalls = demoInst0.stopCalls ++ [none] ∧
      inst'.stopping = demoInst0.stopping ∧
      inst'.gainEvents = demoInst0.gainEvents) ∧
    (demoInst0.stopping = false → isTagPlaying demoS4 demoInst0.tag = true) :=
  eviction_ignores_stopping_flag demoS3 demoS4 "click" 0 demoClickSound3 0 []
    demoInst0 1 false (some 7) 0 0 false (some 1)
    (by decide) (by rfl) (by decide) (by decide) (by rfl) (by rfl)
    (by decide) (by decide) (by rfl)

/-- C1: on a sound at its positive cap `N` with every instance active,
`play` with `stopOldestIfMax = true` picks the first element of the
sound's instance list (the earliest created), stops its source
immediately (a single argument-less stop call, no gain ramp touched),
creates the new instance, and afterwards the sound has exactly `N`
concurrently active instances. -/
theorem play_stopOldest_eviction (st st' : AudioState) (soundName : String)
    (sid : Nat) (sound : Sound) (N : Nat) (volume : ℚ) (loop : Bool)
    (tag : Option Nat) (offset fadeInSeconds : ℚ) (hasCb : Bool)
    (r : Option Nat)
    (hac : st.acCreated = true)
    (hget : getSound st soundName = some (sid, sound))
    (hN : sound.instances.length = N) (hNpos : 0 < N)
    (hmax : sound.maxSources = (N : Int))
    (hnd : sound.instances.Nodup)
    (hact : ∀ iid ∈ sound.instances, isActiveIn st iid = true)
    (hfresh : ∀ p ∈ st.instTable, p.1 < st.nextInstId)
    (h : play st soundName volume loop tag offset fadeInSeconds true hasCb
      = Except.ok (st', r)) :
    ∃ oldestId rest, sound.instances = oldestId :: rest ∧
      (∃ oldInst, lookupA st.instTable oldestId = some oldInst ∧
        lookupA st'.instTable oldestId =
          some { oldInst with stopCalls := oldInst.stopCalls ++ [none] }) ∧
      r = some st.nextInstId ∧
      soundActiveCount st' sid = N := by
  obtain ⟨oldestId, rest, hhead⟩ : ∃ a t, sound.instances = a :: t := by
    cases hc : sound.instances with
    | nil =>
      rw [hc] at hN
      simp at hN
      omega
    | cons a t => exact ⟨a, t, rfl⟩
  have hactO := hact oldestId (by rw [hhead]; exact List.mem_cons_self _ _)
  unfold isActiveIn at hactO
  cases hlook : lookupA st.instTable oldestId with
  | none =>
    rw [hlook] at hactO
    simp at hactO
  | some oldInst =>
  rw [hlook] at hactO
  have hmax' : 0 < sound.maxSources := by
    rw [hmax]
    exact_mod_cast hNpos
  have hcap : (sound.instances.length : Int) ≥ sound.maxSources := by
    rw [hN, hmax]
  rw [play_evict_eq st soundName sid sound oldestId rest volume loop tag
    offset fadeInSeconds hasCb hac hget hmax' hcap hhead] at h
  obtain ⟨gv, evs, hst', hr⟩ := playGainSetup_ok_state h
  have hne : oldestId ≠ st.nextInstId :=
    fun he => lt_irrefl _ (he ▸ hfresh _ (lookupA_eq_some_mem hlook))
  have hlk2 : lookupA st'.instTable oldestId =
      some { oldInst with stopCalls := oldInst.stopCalls ++ [none] } := by
    rw [hst', playFinish_lookup_old (evictOldest st oldestId) sid sound loop
      tag offset hasCb gv evs oldestId hne]
    exact evictOldest_lookup hlook
  refine ⟨oldestId, rest, hhead, ⟨oldInst, hlook, hlk2⟩, hr, ?_⟩
  have hobj : lookupA st'.soundObjs sid =
      some { sound with instances := sound.instances ++ [st.nextInstId] } := by
    rw [hst']
    have hso : (playFinish (evictOldest st oldestId) sid sound loop tag offset
          hasCb gv evs).1.soundObjs
        = updateA st.soundObjs sid
          (fun s => { s with instances := s.instances ++ [st.nextInstId] }) :=
      rfl
    rw [hso, lookupA_updateA_self, (getSound_lookup hget).2]
    rfl
  have hPold : isActiveIn st' oldestId = false := by
    unfold isActiveIn
    rw [hlk2]
    dsimp only
    cases oldInst.stopCalls <;> simp
  have hPnew : isActiveIn st' st.nextInstId = true := by
    unfold isActiveIn
    rw [hst', playFinish_lookup_new' (evictOldest st oldestId) sid sound loop
      tag offset hasCb gv evs st.nextInstId rfl
      (evictOldest_fresh oldestId hfresh)]
    rfl
  have hPrest : ∀ x ∈ rest, isActiveIn st' x = true := by
    intro x hx
    have hxact := hact x (by rw [hhead]; exact List.mem_cons_of_mem _ hx)
    have hxne_old : x ≠ oldestId := by
      intro he
      rw [hhead] at hnd
      exact (List.nodup_cons.mp hnd).1 (he ▸ hx)
    unfold isActiveIn at hxact ⊢
    cases hlx : lookupA st.instTable x with
    | none =>
      rw [hlx] at hxact
      simp at hxact
    | some xi =>
      rw [hlx] at hxact
      have hxne_new : x ≠ st.nextInstId :=
        fun he => lt_irrefl _ (he ▸ hfresh _ (lookupA_eq_some_mem hlx))
      have hlx' : lookupA st'.instTable x = some xi := by
        rw [hst', playFinish_lookup_old (evictOldest st oldestId) sid sound
          loop tag offset hasCb gv evs x hxne_new]
        unfold evictOldest
        dsimp only
        rw [lookupA_updateA_ne _ _ _ _ hxne_old]
        exact hlx
      rw [hlx']
      exact hxact
  unfold soundActiveCount
  rw [hobj]
  dsimp only
  rw [hhead, List.cons_append, List.countP_cons, List.countP_append]
  have hc1 : rest.countP (fun iid => isActiveIn st' iid) = rest.length :=
    List.countP_eq_length.mpr (fun a ha => hPrest a ha)
  have hc2 : [st.nextInstId].countP (fun iid => isActiveIn st' iid) = 1 := by
    simp [List.countP_cons, hPnew]
  rw [hc1, hc2, hPold]
  have hlen : rest.length + 1 = N := by
    rw [hhead] at hN
    simpa using hN
  simp
  omega

/-- C1 witness: with `maxSources = 1` and one active instance, a second
`play` stops the first instance's source and the sound again has exactly
one concurrently active instance. -/
theorem play_stopOldest_eviction_witness :
    ∃ oldestId rest, demoClickSound3.instances = oldestId :: rest ∧
      (∃ oldInst, lookupA demoS3.instTable oldestId = some oldInst ∧
        lookupA demoS4.instTable oldestId =
          some { oldInst with stopCalls := oldInst.stopCalls ++ [none] }) ∧
      some 1 = some demoS3.nextInstId ∧
      soundActiveCount demoS4 0 = 1 :=
  play_stopOldest_eviction demoS3 demoS4 "click" 0 demoClickSound3 1 1 false
    (some 7) 0 0 false (some 1)
    (by decide) (by rfl) (by rfl) (by decide) (by rfl) (by decide)
    (by decide) (by decide) (by rfl)

/-- C10 witness: a one-second fade-in on the freshly loaded `click` sound
succeeds and schedules the floor set followed by the exponential ramp to
the full product. -/
theorem fadeIn_ramp_target_safety_witness :
    ∃ st', play demoS2 "click" 1 false none 0 1 true false
        = Except.ok (st', some demoS2.nextInstId) ∧
      ∃ inst, lookupA st'.instTable demoS2.nextInstId = some inst ∧
        inst.gainEvents =
          [GainEvent.setValueAtTime fadeFloor demoS2.currentTime,
           GainEvent.expRampToValueAtTime (demoClickSound.baseVolume * 1)
             (demoS2.currentTime + 1)] := by
  refine (fadeIn_ramp_target_safety demoS2 "click" 0 demoClickSound 1 false
    none 0 1 true false (by decide) (by rfl) (by decide) (by decide)).1
    (by norm_num) ?_
  rw [show demoClickSound.baseVolume = (1 : ℚ) from rfl]
  norm_num

/-- C2: in every reachable module state, a not-yet-ended instance appears
exactly once in the global instance list and exactly once in the instance
list of its own sound object (and in no other sound's list); an ended
instance appears in neither list; and the caller's `endedCallback` has run
exactly once precisely when the ended handler has fired and a callback was
provided — so the handler's effects happen exactly once per instance,
whether it ended naturally, was stopped, or was evicted. -/
theorem instance_two_collections_invariant (st : AudioState)
    (h : Reachable st) :
    ∀ iid inst, (iid, inst) ∈ st.instTable →
      (inst.endedFired = false →
        st.soundInstances.count iid = 1 ∧
        ∀ q ∈ st.soundObjs,
          q.2.instances.count iid = if q.1 = inst.soundId then 1 else 0) ∧
      (inst.endedFired = true →
        st.soundInstances.count iid = 0 ∧
        ∀ q ∈ st.soundObjs, q.2.instances.count iid = 0) ∧
      inst.endedCallbackCount =
        (if inst.endedFired ∧ inst.hasEndedCallback then 1 else 0) := by
  intro iid inst hmem
  have hInv := reachable_inv h
  refine ⟨?_, ?_, hInv.cbOnce (iid, inst) hmem⟩
  · intro hne
    refine ⟨by simpa [hne] using hInv.mainGlobal (iid, inst) hmem, ?_⟩
    intro q hq
    simpa [hne] using hInv.mainSound (iid, inst) hmem q hq
  · intro hend
    refine ⟨by simpa [hend] using hInv.mainGlobal (iid, inst) hmem, ?_⟩
    intro q hq
    simpa [hend] using hInv.mainSound (iid, inst) hmem q hq

/-- C2 witness: the demo state reached by creating the context, loading
one sound and playing it once satisfies the two-collection property for
its live instance. -/
theorem instance_two_collections_invariant_witness :
    demoS3.soundInstances.count 0 = 1 ∧ demoInst0.endedCallbackCount = 0 := by
  have hreach : Reachable demoS3 :=
    Reachable.step
      (Reachable.step
        (Reachable.step Reachable.init
          (Step.createCtx initState demoS1 (createAudioContext initState).2
            rfl))
        (Step.load demoS1 demoS2 "click" demoDef
          (LoadOutcome.success demoBuffer)
          (loadOne demoS1 "click" demoDef (LoadOutcome.success demoBuffer)).2
          (by rfl) rfl))
      (Step.playStep demoS2 demoS3 "click" 1 false none 0 0 true false
        (some 0) (by rfl))
  have hthm := instance_two_collections_invariant demoS3 hreach 0 demoInst0
    (lookupA_eq_some_mem (by rfl))
  refine ⟨(hthm.1 (by rfl)).1, ?_⟩
  rw [hthm.2.2, show demoInst0.endedFired = false from rfl]
  simp

/-! Load-fold lemmas. -/

theorem lookupA_append_single_ne {κ α : Type} [DecidableEq κ]
    {l : List (κ × α)} {k k' : κ} (v : α) (hne : k ≠ k') :
    lookupA (l ++ [(k, v)]) k' = lookupA l k' := by
  cases ho : lookupA l k' with
  | some s => exact lookupA_append_left _ ho
  | none =>
    rw [lookupA_append_right _ ho]
    simp [hne]

theorem loadOne_err (st : AudioState) (n : String) (info : SoundDef)
    (o : LoadOutcome) :
    (loadOne st n info o).2 = (outcomeCause o).map
      (fun c => { url := soundUrl info, cause := c }) := by
  cases o <;> rfl

theorem loadOne_fresh (st : AudioState) (n : String) (info : SoundDef)
    (o : LoadOutcome)
    (h1 : ∀ p ∈ st.soundObjs, p.1 < st.nextSoundId)
    (h2 : ∀ p ∈ st.soundNames, p.2 < st.nextSoundId) :
    (∀ p ∈ (loadOne st n info o).1.soundObjs,
      p.1 < (loadOne st n info o).1.nextSoundId) ∧
    (∀ p ∈ (loadOne st n info o).1.soundNames,
      p.2 < (loadOne st n info o).1.nextSoundId) := by
  cases o with
  | fetchFail s => exact ⟨h1, h2⟩
  | decodeFail s => exact ⟨h1, h2⟩
  | success b =>
    dsimp only [loadOne]
    constructor
    · intro p hp
      rcases List.mem_append.mp hp with hm | hm
      · exact Nat.lt_succ_of_lt (h1 p hm)
      · simp at hm
        subst hm
        exact Nat.lt_succ_self _
    · intro p hp
      rcases mem_setA hp with hm | hm
      · exact Nat.lt_succ_of_lt (h2 p hm)
      · subst hm
        exact Nat.lt_succ_self _

theorem loadOne_getSound_success (st : AudioState) (n : String)
    (info : SoundDef) (b : AudioBufferModel)
    (h1 : ∀ p ∈ st.soundObjs, p.1 < st.nextSoundId) :
    (getSound (loadOne st n info (LoadOutcome.success b)).1 n).map Prod.snd =
      some { buffer := b, maxSources := info.maxSources,
             baseVolume := info.baseVolume, instances := [] } := by
  have hnone : lookupA st.soundObjs st.nextSoundId = none := by
    apply lookupA_eq_none_of_not_mem
    intro hmem
    obtain ⟨p, hp, hfst⟩ := List.mem_map.mp hmem
    exact lt_irrefl _ (hfst ▸ h1 p hp)
  have hobjs : lookupA
      (st.soundObjs ++ [(st.nextSoundId,
        { buffer := b, maxSources := info.maxSources,
          baseVolume := info.baseVolume, instances := [] })])
      st.nextSoundId = some
      { buffer := b, maxSources := info.maxSources,
        baseVolume := info.baseVolume, instances := [] } := by
    rw [lookupA_append_right _ hnone]
    simp
  unfold getSound loadOne
  dsimp only
  simp only [lookupA_setA_self, hobjs]
  rfl

theorem loadOne_getSound_other (st : AudioState) (n : String)
    (info : SoundDef) (o : LoadOutcome) (n' : String) (hne : n' ≠ n)
    (h2 : ∀ p ∈ st.soundNames, p.2 < st.nextSoundId) :
    getSound (loadOne st n info o).1 n' = getSound st n' := by
  cases o with
  | fetchFail s => rfl
  | decodeFail s => rfl
  | success b =>
    unfold getSound loadOne
    dsimp only
    rw [lookupA_setA_ne _ _ _ _ hne]
    cases hn : lookupA st.soundNames n' with
    | none => simp only [hn]
    | some sid' =>
      simp only [hn]
      have hsidlt : sid' < st.nextSoundId :=
        h2 (n', sid') (lookupA_eq_some_mem hn)
      rw [lookupA_append_single_ne _ (fun he => lt_irrefl _ (he ▸ hsidlt))]

theorem loadFold_spec (loads : List (String × SoundDef × LoadOutcome)) :
    ∀ st : AudioState,
      (∀ p ∈ st.soundObjs, p.1 < st.nextSoundId) →
      (∀ p ∈ st.soundNames, p.2 < st.nextSoundId) →
      ∀ e0 : Option LoadError,
      (loads.foldl loadStep (st, e0)).2 =
        (match e0 with
         | some e => some e
         | none => (firstFailure loads).map
             (fun x => { url := soundUrl x.1, cause := x.2 })) ∧
      ∀ n : String,
        (getSound (loads.foldl loadStep (st, e0)).1 n).map Prod.snd =
          (match lastSuccess n loads with
           | some r => some
               { buffer := r.2
                 maxSources := r.1.maxSources
                 baseVolume := r.1.baseVolume
                 instances := [] }
           | none => (getSound st n).map Prod.snd) := by
  induction loads with
  | nil =>
    intro st h1 h2 e0
    constructor
    · cases e0 <;> rfl
    · intro n
      rfl
  | cons l t ih =>
    intro st h1 h2 e0
    obtain ⟨n₀, info₀, o₀⟩ := l
    rw [List.foldl_cons]
    obtain ⟨hg1, hg2⟩ := loadOne_fresh st n₀ info₀ o₀ h1 h2
    have hsplit : loadStep (st, e0) (n₀, info₀, o₀) =
        ((loadOne st n₀ info₀ o₀).1,
         (loadStep (st, e0) (n₀, info₀, o₀)).2) := rfl
    rw [hsplit]
    obtain ⟨ihe, ihg⟩ := ih (loadOne st n₀ info₀ o₀).1 hg1 hg2
      (loadStep (st, e0) (n₀, info₀, o₀)).2
    constructor
    · rw [ihe]
      cases e0 with
      | some e =>
        have he1 : (loadStep (st, some e) (n₀, info₀, o₀)).2 = some e := rfl
        rw [he1]
      | none =>
        have he1 : (loadStep (st, none) (n₀, info₀, o₀)).2 =
            (outcomeCause o₀).map
              (fun c => { url := soundUrl info₀, cause := c }) :=
          loadOne_err st n₀ info₀ o₀
        rw [he1]
        cases ho : outcomeCause o₀ with
        | some c => simp [firstFailure, ho]
        | none => simp [firstFailure, ho]
    · intro n
      rw [ihg n]
      cases hls : lastSuccess n t with
      | some r => simp [lastSuccess, hls]
      | none =>
        simp only [lastSuccess, hls]
        by_cases hn : n₀ = n
        · subst hn
          rw [if_pos rfl]
          cases o₀ with
          | success b =>
            exact loadOne_getSound_success st n₀ info₀ b h1
          | fetchFail s => rfl
          | decodeFail s => rfl
        · rw [if_neg hn]
          rw [loadOne_getSound_other st n₀ info₀ o₀ n
            (fun he => hn he.symm) h2]

/-- C5: `asyncLoadSounds` reports failure exactly when some sub-load
fails, with the first failure in completion order wrapped in an error
naming the offending URL; independently of any failure, for every name
the stored sound is that of the name's last successful sub-load — the
decoded buffer, `maxSources`, `baseVolume` and an empty instance list,
overwriting any prior entry — while names without a successful sub-load
keep their previous entry, so already-completed loads are not rolled
back. -/
theorem asyncLoadSounds_partial_failure (st st' : AudioState)
    (loads : List (String × SoundDef × LoadOutcome)) (err : Option LoadError)
    (hf1 : ∀ p ∈ st.soundObjs, p.1 < st.nextSoundId)
    (hf2 : ∀ p ∈ st.soundNames, p.2 < st.nextSoundId)
    (h : asyncLoadSounds st loads = Except.ok (st', err)) :
    err = (firstFailure loads).map
      (fun x => { url := soundUrl x.1, cause := x.2 }) ∧
    ∀ n : String, (getSound st' n).map Prod.snd =
      (match lastSuccess n loads with
       | some r => some
           { buffer := r.2
             maxSources := r.1.maxSources
             baseVolume := r.1.baseVolume
             instances := [] }
       | none => (getSound st n).map Prod.snd) := by
  unfold asyncLoadSounds at h
  by_cases hac : st.acCreated = false
  · rw [if_pos hac] at h
    exact absurd h (by simp)
  · rw [if_neg hac] at h
    injection h with h2
    obtain ⟨he, hg⟩ := loadFold_spec loads st hf1 hf2 none
    constructor
    · exact ((show err = (loads.foldl loadStep (st, none)).2 from
        (congrArg Prod.snd h2).symm)).trans he
    · intro n
      rw [show st' = (loads.foldl loadStep (st, none)).1 from
        (congrArg Prod.fst h2).symm]
      exact hg n

/-- C5 witness: running the demo batch — a success, a fetch failure, then
another success for the first name — reports the failing URL and stores
the last successful load of the duplicated name. -/
theorem asyncLoadSounds_partial_failure_witness :
    demoLoadResult.2 = some { url := soundUrl demoDef2, cause := "Not Found" } ∧
    (getSound demoLoadResult.1 "click").map Prod.snd =
      some { buffer := demoBuffer2, maxSources := demoDef2.maxSources,
             baseVolume := demoDef2.baseVolume, instances := [] } := by
  have hthm := asyncLoadSounds_partial_failure demoS1 demoLoadResult.1
    demoLoads demoLoadResult.2 (by decide) (by decide) (by rfl)
  exact ⟨hthm.1.trans (by rfl), (hthm.2 "click").trans (by rfl)⟩

end AudioSys
